import Mathlib

/-!
# Vision Lake payment pipeline (`src/payment-pipeline/index.js`)

A shallow embedding of the Stripe webhook handler and its helpers
(`createXeroInvoice`, `generatePandaDocContract`, `getTierTemplate`,
`storeTransaction`), followed by the properties established about them.

* JavaScript Numbers are IEEE-754 binary64 values.  A finite non-negative Number is
  represented by its exact rational value; `JS.toDouble` is round-to-nearest,
  ties-to-even, and `JS.numberToString` is `Number::toString` (radix 10) of ECMA-262.
* The external systems (Stripe, Xero, PandaDoc, Firestore) are explicit state
  (`World`) together with the answers they give during one delivery (`Upstream`).
* `await`/`throw` become `Except String` threaded through the world: a step that
  throws leaves the effects of the earlier steps in place.
* Payload fields carry the types of the processor's documents (strings, an integer
  amount in minor units); console output is not part of the state.
-/

namespace JS

/-! ## Decimal digits -/

/-- The decimal digit `d % 10` as a character. -/
def digit (d : Nat) : Char := Char.ofNat (48 + d % 10)

/-- The decimal digits of `n`, most significant first; `fuel` bounds their number. -/
def digitsFuel : Nat → Nat → List Char
  | 0, _ => []
  | fuel + 1, n => if n < 10 then [digit n] else digitsFuel fuel (n / 10) ++ [digit n]

/-- The decimal digits of `n` without leading zeros (`0` for zero). -/
def decimalDigits (n : Nat) : List Char := digitsFuel (n + 1) n

/-! ## JavaScript Numbers -/

/-- Floor of the base-`b` logarithm by repeated division; `fuel` bounds the divisions. -/
def logFuel (b : Nat) : Nat → Nat → Nat
  | 0, _ => 0
  | fuel + 1, n => if n < b then 0 else logFuel b fuel (n / b) + 1

/-- Floor of `log b n` (`0` for `n < b`). -/
def ilog (b n : Nat) : Nat := logFuel b n n

/-- The scale exponent of a positive rational: the integer `e` with
`b ^ e ≤ z < b ^ (e + 1)`. -/
def scaleExp (b : Nat) (z : ℚ) : ℤ :=
  let e0 : ℤ := (ilog b z.num.natAbs : ℤ) - (ilog b z.den : ℤ)
  if z < (b : ℚ) ^ e0 then e0 - 1 else e0

/-- Round to the nearest integer, ties to the even one. -/
def roundHalfEven (q : ℚ) : ℤ :=
  let m := ⌊q⌋
  let r := q - m
  if r < 1 / 2 then m
  else if r = 1 / 2 then (if m % 2 = 0 then m else m + 1)
  else m + 1

/-- The exponent of the unit in the last place of the binary64 format around `z`:
53 significant bits for a normal number, `2 ^ (-1074)` for a subnormal one. -/
def ulpExp (z : ℚ) : ℤ := max (scaleExp 2 z - 52) (-1074)

/-- IEEE-754 round-to-nearest, ties-to-even, of a non-negative real, as the exact
value of the resulting binary64 number.  Overflow to `Infinity` (reals of `2 ^ 1024`
and beyond) is not represented. -/
def toDouble (z : ℚ) : ℚ :=
  if z = 0 then 0 else (roundHalfEven (z / (2 : ℚ) ^ ulpExp z) : ℚ) * (2 : ℚ) ^ ulpExp z

/-- The Number a non-negative integer literal or JSON number denotes: the integer
itself up to `2 ^ 53`, the nearest Number beyond. -/
def ofNat (a : Nat) : ℚ := toDouble a

/-- JavaScript `x / y` on finite positive Numbers: the exact quotient, rounded. -/
def div (x y : ℚ) : ℚ := toDouble (x / y)

/-- The `k`-digit decimals next to `x` at digit position `p` that read back as `x`:
of `⌊x / 10^p⌋` and its successor, those whose nearest Number is `x`; when both do,
the one nearer to `x`, and the even one on a tie. -/
def pickDigits (x : ℚ) (p : ℤ) : Option ℤ :=
  let lo : ℤ := ⌊x / (10 : ℚ) ^ p⌋
  let hi : ℤ := lo + 1
  let okLo : Bool := decide (toDouble ((lo : ℚ) * (10 : ℚ) ^ p) = x)
  let okHi : Bool := decide (toDouble ((hi : ℚ) * (10 : ℚ) ^ p) = x)
  let dLo : ℚ := x - (lo : ℚ) * (10 : ℚ) ^ p
  let dHi : ℚ := (hi : ℚ) * (10 : ℚ) ^ p - x
  match okLo, okHi with
  | true, true =>
    if dLo < dHi then some lo else if dHi < dLo then some hi
    else if lo % 2 = 0 then some lo else some hi
  | true, false => some lo
  | false, true => some hi
  | false, false => none

/-- Search for the least number of digits `k` (from `k` upwards, at most `fuel`
more) for which a `k`-digit decimal reads back as `x`; the answer is the digit
integer `s` and the position `p` of its last digit, denoting `s * 10 ^ p`.  Should
the fuel run out, the truncation to the last `k` tried is returned. -/
def shortestFrom (x : ℚ) (n : ℤ) : Nat → Nat → ℤ × ℤ
  | 0, k => (⌊x / (10 : ℚ) ^ (n - k)⌋, n - k)
  | fuel + 1, k =>
    match pickDigits x (n - k) with
    | some s => (s, n - k)
    | none => shortestFrom x n fuel (k + 1)

/-- The shortest decimal `s * 10 ^ p` that reads back as the positive Number `x`
(17 significant digits always suffice for binary64). -/
def shortest (x : ℚ) : ℤ × ℤ := shortestFrom x (scaleExp 10 x + 1) 17 1

/-- The value a digit integer and a position denote. -/
def decimalValue (sp : ℤ × ℤ) : ℚ := (sp.1 : ℚ) * (10 : ℚ) ^ sp.2

/-- Drop trailing zero digits of `s`, raising the position accordingly. -/
def stripZeros : Nat → Nat → ℤ → Nat × ℤ
  | 0, s, p => (s, p)
  | fuel + 1, s, p => if s ≠ 0 ∧ s % 10 = 0 then stripZeros fuel (s / 10) (p + 1) else (s, p)

/-- A list of `n` zeros. -/
def zeros (n : Nat) : List Char := List.replicate n '0'

/-- Rendering of a positive Number from its digits: `ds` are the `k` decimal
digits of `s` and `n` is such that the value is `0.ds * 10 ^ n`
(`Number::toString`, radix 10). -/
def formatDigits (ds : List Char) (n : ℤ) : List Char :=
  let k : ℤ := ds.length
  if k ≤ n ∧ n ≤ 21 then ds ++ zeros (n - k).toNat
  else if 0 < n ∧ n ≤ 21 then ds.take n.toNat ++ '.' :: ds.drop n.toNat
  else if -6 < n ∧ n ≤ 0 then '0' :: '.' :: (zeros (-n).toNat ++ ds)
  else
    let e : ℤ := n - 1
    let sign : Char := if 0 ≤ e then '+' else '-'
    let ex : List Char := decimalDigits e.natAbs
    match ds with
    | [] => []
    | [d] => d :: 'e' :: sign :: ex
    | d :: rest => d :: '.' :: (rest ++ 'e' :: sign :: ex)

/-- `Number::toString(x)` for a finite non-negative Number `x`. -/
def numberToString (x : ℚ) : String :=
  if x = 0 then "0"
  else
    let sp := shortest x
    let sn := stripZeros 17 sp.1.toNat sp.2
    let ds := decimalDigits sn.1
    String.mk (formatDigits ds (sn.2 + ds.length))

/-! ## JavaScript strings -/

/-- `s.split(sep)` for a one-character separator: the pieces between occurrences. -/
def split (s : String) (sep : Char) : List String :=
  (s.toList.splitOn sep).map String.mk

/-- `xs.join(sep)` for a one-character separator. -/
def join (xs : List String) (sep : Char) : String :=
  String.mk ([sep].intercalate (xs.map String.toList))

/-- `xs[0]` on the result of `split`, which is never empty. -/
def first (xs : List String) : String := xs.headD ""

/-- `x || null`: a missing or empty string is falsy. -/
def orNull (x : Option String) : Option String :=
  match x with
  | some s => if s = "" then none else some s
  | none => none

/-! ## JavaScript dates -/

/-- The reading of the clock taken by one `new Date()`, in the UTC fields that
`toISOString` prints, with the rendering `toLocaleDateString()` gives for it in the
host's locale. -/
structure Date where
  year : Nat
  month : Nat
  day : Nat
  hours : Nat
  minutes : Nat
  seconds : Nat
  milliseconds : Nat
  localeDateString : String

/-- Fixed-width decimal fields. -/
def pad2 (n : Nat) : List Char := [digit (n / 10), digit n]
def pad3 (n : Nat) : List Char := digit (n / 100) :: pad2 n
def pad4 (n : Nat) : List Char := digit (n / 1000) :: pad3 n
def pad6 (n : Nat) : List Char := digit (n / 100000) :: digit (n / 10000) :: pad4 n

/-- The year field of `toISOString`: four digits up to 9999, the expanded
six-digit form with a sign beyond. -/
def isoYear (y : Nat) : List Char := if y ≤ 9999 then pad4 y else '+' :: pad6 y

/-- `Date.prototype.toISOString`: `YYYY-MM-DDTHH:mm:ss.sssZ`. -/
def Date.toISOString (d : Date) : String :=
  String.mk (isoYear d.year ++ '-' :: pad2 d.month ++ '-' :: pad2 d.day ++ 'T' ::
    pad2 d.hours ++ ':' :: pad2 d.minutes ++ ':' :: pad2 d.seconds ++ '.' ::
    pad3 d.milliseconds ++ ['Z'])

/-! ## Reading a decimal numeral

The value denoted by a plain decimal numeral (digits, optionally a point and more
digits), used to state what a rendered Number says. -/

/-- The value of a decimal digit character. -/
def digitValue (c : Char) : Option Nat :=
  if '0' ≤ c ∧ c ≤ '9' then some (c.toNat - 48) else none

/-- Read a sequence of decimal digits onto the accumulator `acc`. -/
def readDigits (acc : Nat) : List Char → Option Nat
  | [] => some acc
  | c :: cs =>
    match digitValue c with
    | some d => readDigits (acc * 10 + d) cs
    | none => none

/-- The natural number written by a non-empty sequence of decimal digits. -/
def readNat (l : List Char) : Option Nat :=
  match l with
  | [] => none
  | _ :: _ => readDigits 0 l

/-- The rational written by a decimal numeral `ddd` or `ddd.ddd`. -/
def readDecimal (l : List Char) : Option ℚ :=
  match l.dropWhile (fun c => c != '.') with
  | [] =>
    match readNat l with
    | some i => some (i : ℚ)
    | none => none
  | _ :: frac =>
    match readNat (l.takeWhile (fun c => c != '.')), readNat frac with
    | some i, some f => some ((i : ℚ) + (f : ℚ) / (10 : ℚ) ^ frac.length)
    | _, _ => none

/-- The amount a token value of the form `$` numeral states. -/
def readDollars (s : String) : Option ℚ :=
  match s.data with
  | '$' :: l => readDecimal l
  | _ => none

/-- A list of decimal digit characters. -/
def IsDigits (l : List Char) : Prop := ∀ c ∈ l, ∃ d : Nat, d < 10 ∧ c = digit d

/-- The number a digit list writes, read on top of `acc`. -/
def numVal (acc : Nat) (l : List Char) : Nat := l.foldl (fun v c => v * 10 + (c.toNat - 48)) acc

end JS

namespace Pipeline

/-! ## Data exchanged with the external systems -/

/-- `customer.metadata` of a Stripe customer. -/
structure Metadata where
  squadronId : Option String
  pcpAssigned : Option String
  deriving DecidableEq

/-- A Stripe customer, as `stripe.customers.retrieve` returns it. -/
structure Customer where
  id : String
  name : String
  email : String
  phone : Option String
  metadata : Metadata
  deriving DecidableEq

/-- The checkout session carried by the event (`event.data.object`). -/
structure Session where
  id : String
  customer : String
  amount_total : Nat
  currency : String
  deriving DecidableEq

/-- The webhook payload (`req.body`). -/
structure Event where
  type : String
  object : Session
  deriving DecidableEq

/-- An entry of a Xero contact's `Phones`. -/
structure Phone where
  PhoneType : String
  PhoneNumber : Option String
  deriving DecidableEq

/-- A Xero contact. -/
structure Contact where
  ContactID : String
  Name : String
  EmailAddress : Option String
  Phones : List Phone
  deriving DecidableEq

/-- A line item of a Xero invoice; `UnitAmount` is a Number. -/
structure LineItem where
  Description : String
  Quantity : Nat
  UnitAmount : ℚ
  AccountCode : String
  deriving DecidableEq

/-- A Xero invoice: the object submitted to `createInvoices` together with the
`InvoiceID` the server assigned. -/
structure Invoice where
  InvoiceID : String
  Type_ : String
  ContactID : String
  LineItems : List LineItem
  Status : String
  Date : String
  deriving DecidableEq

/-- A recipient of a PandaDoc document. -/
structure Recipient where
  email : String
  first_name : String
  last_name : String
  role : String
  deriving DecidableEq

/-- A template token of a PandaDoc document. -/
structure Token where
  name : String
  value : String
  deriving DecidableEq

/-- A PandaDoc document: the object submitted to `createFromTemplate` together
with the `id` the server assigned. -/
structure Document where
  id : String
  templateUuid : String
  name : String
  recipients : List Recipient
  tokens : List Token
  deriving DecidableEq

/-- A signature request: the arguments of `pandaClient.documents.send`. -/
structure SendRequest where
  documentId : String
  message : String
  silent : Bool
  deriving DecidableEq

/-- A write-time field value of Firestore. -/
inductive FieldValue where
  | serverTimestamp
  deriving DecidableEq

/-- A document of the Firestore collection `transactions`. -/
structure TransactionRecord where
  customerId : String
  customerEmail : String
  amount : Nat
  currency : String
  paymentStatus : String
  stripeSessionId : String
  xeroInvoiceId : String
  pandaDocContractId : String
  timestamp : FieldValue
  squadronId : Option String
  pcpAssigned : Option String
  deriving DecidableEq

/-- The part of `process.env` the helpers read. -/
structure Env where
  PANDADOC_TEMPLATE_BASIC : String
  PANDADOC_TEMPLATE_PREMIUM : String
  PANDADOC_TEMPLATE_ENTERPRISE : String

/-- The state of the external systems: Xero's contacts and invoices, PandaDoc's
documents and signature requests, and the Firestore collection `transactions`. -/
structure World where
  contacts : List Contact
  invoices : List Invoice
  documents : List Document
  sent : List SendRequest
  transactions : List TransactionRecord
  deriving DecidableEq

/-- What the external systems answer during one delivery.  A call either throws
an `Error` with the given message or succeeds; a creating call that succeeds
answers with the id the server assigned. -/
structure Upstream where
  retrieve : String → Except String Customer
  getContacts : Option String
  createContacts : Except String String
  createInvoices : Except String String
  createFromTemplate : Except String String
  send : Option String
  add : Option String
  invoiceClock : JS.Date
  contractClock : JS.Date

/-- The body of the HTTP answer. -/
inductive Body where
  | received (flag : Bool)
  | error (message : String)
  deriving DecidableEq

/-- The HTTP answer `res.status(status).send(body)`. -/
structure Response where
  status : Nat
  body : Body
  deriving DecidableEq

/-! ## The helpers -/

/-- `getTierTemplate(amount)`. -/
def getTierTemplate (env : Env) (amount : Nat) : String :=
  if amount ≤ 35000 then env.PANDADOC_TEMPLATE_BASIC
  else if amount ≤ 1000000 then env.PANDADOC_TEMPLATE_PREMIUM
  else env.PANDADOC_TEMPLATE_ENTERPRISE

/-- `contacts.body.Contacts.find(c => c.EmailAddress === customer.email)`. -/
def findContact (contacts : List Contact) (customer : Customer) : Option Contact :=
  contacts.find? fun c => decide (c.EmailAddress = some customer.email)

/-- The `newContact` object with the id Xero answers in `response.body.Contacts[0]`. -/
def newContact (customer : Customer) (id : String) : Contact :=
  { ContactID := id
    Name := customer.name
    EmailAddress := some customer.email
    Phones := [{ PhoneType := "MOBILE", PhoneNumber := customer.phone }] }

/-- The expression `amount / 100` on the Number holding `amount`. -/
def majorUnits (amount : Nat) : ℚ := JS.div (JS.ofNat amount) (JS.ofNat 100)

/-- `new Date().toISOString().split('T')[0]`. -/
def isoDate (now : JS.Date) : String := JS.first (JS.split now.toISOString 'T')

/-- The `invoice` object of `createXeroInvoice` with the id Xero answers in
`response.body.Invoices[0]`. -/
def newInvoice (contact : Contact) (amount : Nat) (now : JS.Date) (id : String) : Invoice :=
  { InvoiceID := id
    Type_ := "ACCREC"
    ContactID := contact.ContactID
    LineItems := [{ Description := "Vision Lake Subscription"
                    Quantity := 1
                    UnitAmount := majorUnits amount
                    AccountCode := "200" }]
    Status := "AUTHORISED"
    Date := isoDate now }

/-- The second half of `createXeroInvoice`: build the invoice for the resolved
contact and submit it. -/
def submitInvoice (u : Upstream) (w : World) (contact : Contact) (amount : Nat) :
    World × Except String Invoice :=
  match u.createInvoices with
  | .error msg => (w, .error msg)
  | .ok id =>
    let invoice := newInvoice contact amount u.invoiceClock id
    ({ w with invoices := w.invoices ++ [invoice] }, .ok invoice)

/-- `createXeroInvoice(customer, amount)`. -/
def createXeroInvoice (u : Upstream) (w : World) (customer : Customer) (amount : Nat) :
    World × Except String Invoice :=
  match u.getContacts with
  | some msg => (w, .error msg)
  | none =>
    match findContact w.contacts customer with
    | some contact => submitInvoice u w contact amount
    | none =>
      match u.createContacts with
      | .error msg => (w, .error msg)
      | .ok id =>
        let contact := newContact customer id
        submitInvoice u { w with contacts := w.contacts ++ [contact] } contact amount

/-- `customer.name.split(' ')[0]`. -/
def firstName (name : String) : String := JS.first (JS.split name ' ')

/-- `customer.name.split(' ').slice(1).join(' ')`. -/
def lastName (name : String) : String := JS.join ((JS.split name ' ').drop 1) ' '

/-- The template literal of the `subscription.amount` token: a dollar sign
followed by the string conversion of `amount / 100`. -/
def amountToken (amount : Nat) : String := "$" ++ JS.numberToString (majorUnits amount)

/-- The object submitted to `createFromTemplate` with the id PandaDoc answers. -/
def newDocument (env : Env) (customer : Customer) (amount : Nat) (now : JS.Date)
    (id : String) : Document :=
  { id := id
    templateUuid := getTierTemplate env amount
    name := "Vision Lake Contract - " ++ customer.name
    recipients := [{ email := customer.email
                     first_name := firstName customer.name
                     last_name := lastName customer.name
                     role := "Client" }]
    tokens := [{ name := "client.name", value := customer.name },
               { name := "subscription.amount", value := amountToken amount },
               { name := "subscription.date", value := now.localeDateString }] }

/-- The signature request of `generatePandaDocContract`. -/
def signatureRequest (documentId : String) : SendRequest :=
  { documentId := documentId
    message := "Please review and sign your Vision Lake subscription contract"
    silent := false }

/-- `generatePandaDocContract(customer, amount)`. -/
def generatePandaDocContract (env : Env) (u : Upstream) (w : World) (customer : Customer)
    (amount : Nat) : World × Except String Document :=
  match u.createFromTemplate with
  | .error msg => (w, .error msg)
  | .ok id =>
    let documentResponse := newDocument env customer amount u.contractClock id
    let w1 := { w with documents := w.documents ++ [documentResponse] }
    match u.send with
    | some msg => (w1, .error msg)
    | none => ({ w1 with sent := w1.sent ++ [signatureRequest documentResponse.id] },
               .ok documentResponse)

/-- The record `storeTransaction` adds. -/
def transactionRecord (customer : Customer) (session : Session) (invoiceId contractId : String) :
    TransactionRecord :=
  { customerId := customer.id
    customerEmail := customer.email
    amount := session.amount_total
    currency := session.currency
    paymentStatus := "completed"
    stripeSessionId := session.id
    xeroInvoiceId := invoiceId
    pandaDocContractId := contractId
    timestamp := FieldValue.serverTimestamp
    squadronId := JS.orNull customer.metadata.squadronId
    pcpAssigned := JS.orNull customer.metadata.pcpAssigned }

/-- `storeTransaction(customer, session, invoiceId, contractId)`. -/
def storeTransaction (u : Upstream) (w : World) (customer : Customer) (session : Session)
    (invoiceId contractId : String) : World × Except String Unit :=
  match u.add with
  | some msg => (w, .error msg)
  | none =>
    ({ w with transactions :=
        w.transactions ++ [transactionRecord customer session invoiceId contractId] }, .ok ())

/-! ## The webhook handler -/

/-- `res.status(200).send({received: true})`. -/
def acknowledged : Response := { status := 200, body := Body.received true }

/-- `res.status(500).send({error: error.message})`. -/
def failed (message : String) : Response := { status := 500, body := Body.error message }

/-- `app.post('/webhook/stripe', ...)`: the world after the delivery and the answer. -/
def handler (env : Env) (u : Upstream) (w : World) (event : Event) : World × Response :=
  if event.type = "checkout.session.completed" then
    let session := event.object
    match u.retrieve session.customer with
    | .error msg => (w, failed msg)
    | .ok customer =>
      match createXeroInvoice u w customer session.amount_total with
      | (w1, .error msg) => (w1, failed msg)
      | (w1, .ok invoice) =>
        match generatePandaDocContract env u w1 customer session.amount_total with
        | (w2, .error msg) => (w2, failed msg)
        | (w2, .ok contract) =>
          match storeTransaction u w2 customer session invoice.InvoiceID contract.id with
          | (w3, .error msg) => (w3, failed msg)
          | (w3, .ok _) => (w3, acknowledged)
  else (w, acknowledged)

/-! ## Notions used in the statements -/

/-- Every external call of one delivery for the customer reference `ref` succeeds. -/
def Upstream.AllSucceed (u : Upstream) (ref : String) : Prop :=
  (∃ c, u.retrieve ref = .ok c) ∧ u.getContacts = none ∧ (∃ id, u.createContacts = .ok id) ∧
  (∃ id, u.createInvoices = .ok id) ∧ (∃ id, u.createFromTemplate = .ok id) ∧
  u.send = none ∧ u.add = none

/-- The contact an invoice is raised against: the first listed contact with the
customer's email, or else the contact created under the id `cid`. -/
def resolvedContact (w : World) (customer : Customer) (cid : String) : Contact :=
  (findContact w.contacts customer).getD (newContact customer cid)

/-- Xero's contacts after the contact has been resolved. -/
def contactsAfter (w : World) (customer : Customer) (cid : String) : List Contact :=
  match findContact w.contacts customer with
  | some _ => w.contacts
  | none => w.contacts ++ [newContact customer cid]

/-- The number of stored records that carry the session id `sid`. -/
def recordsFor (w : World) (sid : String) : Nat :=
  (w.transactions.filter fun r => decide (r.stripeSessionId = sid)).length

/-! ## A concrete delivery -/

/-- Three distinct template identifiers. -/
def env0 : Env :=
  { PANDADOC_TEMPLATE_BASIC := "tpl-basic"
    PANDADOC_TEMPLATE_PREMIUM := "tpl-premium"
    PANDADOC_TEMPLATE_ENTERPRISE := "tpl-enterprise" }

/-- The customer of the end-to-end scenario. -/
def ada : Customer :=
  { id := "cus_1", name := "Ada Lovelace", email := "a@x.com", phone := none
    metadata := { squadronId := none, pcpAssigned := none } }

/-- 7 March 2024, 09:05:00.042 UTC. -/
def clock0 : JS.Date :=
  { year := 2024, month := 3, day := 7, hours := 9, minutes := 5, seconds := 0
    milliseconds := 42, localeDateString := "3/7/2024" }

/-- The checkout-completed event of the end-to-end scenario. -/
def event0 : Event :=
  { type := "checkout.session.completed"
    object := { id := "s1", customer := "cus_1", amount_total := 50000, currency := "usd" } }

/-- External systems that hold nothing yet. -/
def world0 : World :=
  { contacts := [], invoices := [], documents := [], sent := [], transactions := [] }

/-- Every call succeeds. -/
def upOk : Upstream :=
  { retrieve := fun _ => .ok ada
    getContacts := none
    createContacts := .ok "contact-1"
    createInvoices := .ok "inv-1"
    createFromTemplate := .ok "doc-1"
    send := none
    add := none
    invoiceClock := clock0
    contractClock := clock0 }

/-- PandaDoc refuses to send the document for signature. -/
def upSendFails : Upstream := { upOk with send := some "PandaDoc unavailable" }

/-- Xero rejects the new contact. -/
def upContactRejected : Upstream := { upOk with createContacts := .error "Email address is invalid" }

/-- Firestore refuses the write. -/
def upAddFails : Upstream := { upOk with add := some "Firestore unavailable" }

end Pipeline

/-! # Properties -/

namespace JS

/-! ## Scale exponents -/

theorem logFuel_spec (b : Nat) (hb : 2 ≤ b) :
    ∀ fuel n, 1 ≤ n → n ≤ fuel →
      b ^ logFuel b fuel n ≤ n ∧ n < b ^ (logFuel b fuel n + 1) := by
  intro fuel
  induction fuel with
  | zero => intro n h1 h2; omega
  | succ f ih =>
    intro n h1 h2
    unfold logFuel
    by_cases hlt : n < b
    · simp [hlt]
      omega
    · simp only [hlt, if_false]
      have hb0 : 0 < b := by omega
      have hdiv1 : 1 ≤ n / b := (Nat.one_le_div_iff hb0).2 (by omega)
      have hdivlt : n / b < n := Nat.div_lt_self (by omega) (by omega)
      obtain ⟨h3, h4⟩ := ih (n / b) hdiv1 (by omega)
      constructor
      · rw [pow_succ]
        exact (Nat.le_div_iff_mul_le hb0).1 h3
      · rw [pow_succ]
        exact (Nat.div_lt_iff_lt_mul hb0).1 h4

theorem ilog_spec (b : Nat) (hb : 2 ≤ b) (n : Nat) (hn : 1 ≤ n) :
    b ^ ilog b n ≤ n ∧ n < b ^ (ilog b n + 1) :=
  logFuel_spec b hb n n hn (le_refl n)

/-- The scale exponent brackets a positive rational: `b ^ e ≤ z < b ^ (e + 1)`. -/
theorem scaleExp_spec (b : Nat) (hb : 2 ≤ b) (z : ℚ) (hz : 0 < z) :
    (b : ℚ) ^ scaleExp b z ≤ z ∧ z < (b : ℚ) ^ (scaleExp b z + 1) := by
  have hbq : (0 : ℚ) < b := by exact_mod_cast (by omega : 0 < b)
  have hnum : 0 < z.num := Rat.num_pos.2 hz
  have hden : 1 ≤ z.den := z.den_pos
  have hnat : 1 ≤ z.num.natAbs := by omega
  obtain ⟨hn1, hn2⟩ := ilog_spec b hb z.num.natAbs hnat
  obtain ⟨hd1, hd2⟩ := ilog_spec b hb z.den hden
  have hzq : z * (z.den : ℚ) = (z.num.natAbs : ℚ) := by
    have h1 : ((z.num.natAbs : ℤ) : ℚ) = (z.num : ℚ) := by
      rw [Int.natAbs_of_nonneg hnum.le]
    have h2 : ((z.num.natAbs : ℕ) : ℚ) = ((z.num.natAbs : ℤ) : ℚ) := (Int.cast_natCast _).symm
    rw [h2, h1]
    exact Rat.mul_den_eq_num z
  have hn1q : (b : ℚ) ^ (ilog b z.num.natAbs) ≤ (z.num.natAbs : ℚ) := by exact_mod_cast hn1
  have hn2q : (z.num.natAbs : ℚ) < (b : ℚ) ^ (ilog b z.num.natAbs + 1) := by exact_mod_cast hn2
  have hd1q : (b : ℚ) ^ (ilog b z.den) ≤ (z.den : ℚ) := by exact_mod_cast hd1
  have hd2q : (z.den : ℚ) < (b : ℚ) ^ (ilog b z.den + 1) := by exact_mod_cast hd2
  unfold scaleExp
  simp only []
  generalize ilog b z.num.natAbs = N at hn1q hn2q ⊢
  generalize ilog b z.den = D at hd1q hd2q ⊢
  have hlow : (b : ℚ) ^ ((N : ℤ) - (D : ℤ) - 1) ≤ z := by
    have : (b : ℚ) ^ ((N : ℤ) - (D : ℤ) - 1) = (b : ℚ) ^ N / (b : ℚ) ^ (D + 1) := by
      rw [show ((N : ℤ) - (D : ℤ) - 1) = (N : ℤ) - ((D + 1 : ℕ) : ℤ) by push_cast; ring]
      rw [zpow_sub₀ hbq.ne', zpow_natCast, zpow_natCast]
    rw [this, div_le_iff₀ (by positivity)]
    calc (b : ℚ) ^ N ≤ (z.num.natAbs : ℚ) := hn1q
      _ = z * (z.den : ℚ) := hzq.symm
      _ ≤ z * (b : ℚ) ^ (D + 1) := by gcongr
  have hhigh : z < (b : ℚ) ^ ((N : ℤ) - (D : ℤ) + 1) := by
    have : (b : ℚ) ^ ((N : ℤ) - (D : ℤ) + 1) = (b : ℚ) ^ (N + 1) / (b : ℚ) ^ D := by
      rw [show ((N : ℤ) - (D : ℤ) + 1) = ((N + 1 : ℕ) : ℤ) - ((D : ℕ) : ℤ) by push_cast; ring]
      rw [zpow_sub₀ hbq.ne', zpow_natCast, zpow_natCast]
    rw [this, lt_div_iff₀ (by positivity)]
    calc z * (b : ℚ) ^ D ≤ z * (z.den : ℚ) := by gcongr
      _ = (z.num.natAbs : ℚ) := hzq
      _ < (b : ℚ) ^ (N + 1) := hn2q
  split
  · rename_i hlt
    exact ⟨hlow, by simpa using hlt⟩
  · rename_i hlt
    exact ⟨not_lt.1 hlt, hhigh⟩

theorem scaleExp_lt_of_lt (b : Nat) (hb : 2 ≤ b) (z : ℚ) (hz : 0 < z) (k : ℤ)
    (h : z < (b : ℚ) ^ k) : scaleExp b z < k := by
  have hb1 : (1 : ℚ) < b := by exact_mod_cast (by omega : 1 < b)
  have h1 := (scaleExp_spec b hb z hz).1
  exact (zpow_lt_zpow_iff_right₀ hb1).1 (lt_of_le_of_lt h1 h)

theorem le_scaleExp_of_le (b : Nat) (hb : 2 ≤ b) (z : ℚ) (hz : 0 < z) (k : ℤ)
    (h : (b : ℚ) ^ k ≤ z) : k ≤ scaleExp b z := by
  have hb1 : (1 : ℚ) < b := by exact_mod_cast (by omega : 1 < b)
  have h2 := (scaleExp_spec b hb z hz).2
  have := (zpow_lt_zpow_iff_right₀ hb1).1 (lt_of_le_of_lt h h2)
  omega

/-! ## Rounding -/

theorem roundHalfEven_floor_le (q : ℚ) : ⌊q⌋ ≤ roundHalfEven q := by
  unfold roundHalfEven
  simp only []
  split_ifs <;> omega

theorem roundHalfEven_err (q : ℚ) : |(roundHalfEven q : ℚ) - q| ≤ 1 / 2 := by
  have h1 : (⌊q⌋ : ℚ) ≤ q := Int.floor_le q
  have h2 : q < (⌊q⌋ : ℚ) + 1 := Int.lt_floor_add_one q
  unfold roundHalfEven
  simp only []
  rw [abs_le]
  split_ifs with ha hb hc
  · constructor <;> linarith
  · constructor <;> linarith
  · push_cast
    constructor <;> linarith
  · push_cast
    have : (1 : ℚ) / 2 ≤ q - ⌊q⌋ := not_lt.1 ha
    constructor <;> linarith

theorem toDouble_err (z : ℚ) (hz : z ≠ 0) :
    |toDouble z - z| ≤ (2 : ℚ) ^ ulpExp z / 2 := by
  have hpos : (0 : ℚ) < (2 : ℚ) ^ ulpExp z := by positivity
  unfold toDouble
  rw [if_neg hz]
  have h := roundHalfEven_err (z / (2 : ℚ) ^ ulpExp z)
  have e : (roundHalfEven (z / (2 : ℚ) ^ ulpExp z) : ℚ) * (2 : ℚ) ^ ulpExp z - z =
      ((roundHalfEven (z / (2 : ℚ) ^ ulpExp z) : ℚ) - z / (2 : ℚ) ^ ulpExp z) *
        (2 : ℚ) ^ ulpExp z := by
    field_simp
  rw [e, abs_mul, abs_of_pos hpos]
  calc |(roundHalfEven (z / (2 : ℚ) ^ ulpExp z) : ℚ) - z / (2 : ℚ) ^ ulpExp z| *
        (2 : ℚ) ^ ulpExp z ≤ 1 / 2 * (2 : ℚ) ^ ulpExp z := by gcongr
    _ = (2 : ℚ) ^ ulpExp z / 2 := by ring

/-- Rounding does not cross a power of two from above. -/
theorem toDouble_ge_two_pow (z : ℚ) (k : ℤ) (hk : -1022 ≤ k) (h : (2 : ℚ) ^ k ≤ z) :
    (2 : ℚ) ^ k ≤ toDouble z := by
  have hz : 0 < z := lt_of_lt_of_le (by positivity) h
  have hs : k ≤ scaleExp 2 z := le_scaleExp_of_le 2 (le_refl 2) z hz k (by exact_mod_cast h)
  have hu : ulpExp z = scaleExp 2 z - 52 := by
    unfold ulpExp
    exact max_eq_left (by omega)
  have hpos : (0 : ℚ) < (2 : ℚ) ^ ulpExp z := by positivity
  have hlow := (scaleExp_spec 2 (le_refl 2) z hz).1
  have hq : ((2 : ℚ) ^ (52 : ℤ)) ≤ z / (2 : ℚ) ^ ulpExp z := by
    rw [le_div_iff₀ hpos, ← zpow_add₀ (by norm_num : (2 : ℚ) ≠ 0), hu]
    have : (52 : ℤ) + (scaleExp 2 z - 52) = scaleExp 2 z := by ring
    rw [this]
    exact_mod_cast hlow
  have hfl : ((2 : ℤ) ^ (52 : ℕ)) ≤ ⌊z / (2 : ℚ) ^ ulpExp z⌋ := by
    rw [Int.le_floor]
    have : (((2 : ℤ) ^ (52 : ℕ) : ℤ) : ℚ) = (2 : ℚ) ^ (52 : ℤ) := by norm_num
    rw [this]
    exact hq
  have hr : ((2 : ℤ) ^ (52 : ℕ)) ≤ roundHalfEven (z / (2 : ℚ) ^ ulpExp z) :=
    le_trans hfl (roundHalfEven_floor_le _)
  have hrq : (2 : ℚ) ^ (52 : ℤ) ≤ (roundHalfEven (z / (2 : ℚ) ^ ulpExp z) : ℚ) := by
    have : (((2 : ℤ) ^ (52 : ℕ) : ℤ) : ℚ) ≤ (roundHalfEven (z / (2 : ℚ) ^ ulpExp z) : ℚ) := by
      exact_mod_cast hr
    calc (2 : ℚ) ^ (52 : ℤ) = (((2 : ℤ) ^ (52 : ℕ) : ℤ) : ℚ) := by norm_num
      _ ≤ _ := this
  unfold toDouble
  rw [if_neg hz.ne']
  calc (2 : ℚ) ^ k ≤ (2 : ℚ) ^ scaleExp 2 z :=
        zpow_le_zpow_right₀ (by norm_num) hs
    _ = (2 : ℚ) ^ (52 : ℤ) * (2 : ℚ) ^ ulpExp z := by
        rw [← zpow_add₀ (by norm_num : (2 : ℚ) ≠ 0), hu]
        congr 1
        ring
    _ ≤ (roundHalfEven (z / (2 : ℚ) ^ ulpExp z) : ℚ) * (2 : ℚ) ^ ulpExp z := by gcongr

/-! ## Numbers below `2 ^ 46` -/

theorem toDouble_err_small (z : ℚ) (hz : 0 < z) (hlt : z < (2 : ℚ) ^ (46 : ℤ)) :
    |toDouble z - z| ≤ 1 / 256 := by
  have hs : scaleExp 2 z < 46 := scaleExp_lt_of_lt 2 (le_refl 2) z hz 46 (by exact_mod_cast hlt)
  have hu : ulpExp z ≤ -7 := by
    unfold ulpExp
    exact max_le (by omega) (by norm_num)
  have h := toDouble_err z hz.ne'
  have hp : (2 : ℚ) ^ ulpExp z ≤ (2 : ℚ) ^ (-7 : ℤ) := zpow_le_zpow_right₀ (by norm_num) hu
  have h7 : (2 : ℚ) ^ (-7 : ℤ) = 1 / 128 := by norm_num
  rw [h7] at hp
  linarith

/-- Two positive reals that round to the same Number below `2 ^ 46` are less than
a hundredth apart. -/
theorem close_of_toDouble_eq (z y : ℚ) (hz : 0 < z) (hy : 0 < y)
    (hlt : z ≤ (2 : ℚ) ^ (46 : ℤ) - 1 / 100) (h : toDouble y = toDouble z) :
    |y - z| ≤ 1 / 128 := by
  have hz46 : z < (2 : ℚ) ^ (46 : ℤ) := by linarith
  have ez := toDouble_err_small z hz hz46
  have hx : toDouble z < (2 : ℚ) ^ (46 : ℤ) := by
    have := (abs_le.1 ez).2
    linarith
  have hy46 : y < (2 : ℚ) ^ (46 : ℤ) := by
    by_contra hge
    have := toDouble_ge_two_pow y 46 (by norm_num) (not_lt.1 hge)
    rw [h] at this
    linarith
  have ey := toDouble_err_small y hy hy46
  rw [h] at ey
  have e1 := abs_le.1 ez
  have e2 := abs_le.1 ey
  rw [abs_le]
  constructor <;> linarith

/-! ## The digit search -/

theorem pickDigits_sound (x : ℚ) (p s : ℤ) (h : pickDigits x p = some s) :
    toDouble ((s : ℚ) * (10 : ℚ) ^ p) = x ∧ ⌊x / (10 : ℚ) ^ p⌋ ≤ s := by
  unfold pickDigits at h
  simp only [] at h
  split at h
  · rename_i h1 h2
    have h1' := of_decide_eq_true h1
    have h2' := of_decide_eq_true h2
    split_ifs at h with ha hb hc <;> simp only [Option.some.injEq] at h <;> subst h
    · exact ⟨h1', le_refl _⟩
    · exact ⟨h2', by omega⟩
    · exact ⟨h1', le_refl _⟩
    · exact ⟨h2', by omega⟩
  · rename_i h1 h2
    simp only [Option.some.injEq] at h
    subst h
    exact ⟨of_decide_eq_true h1, le_refl _⟩
  · rename_i h1 h2
    simp only [Option.some.injEq] at h
    subst h
    exact ⟨of_decide_eq_true h2, by omega⟩
  · simp at h

theorem pickDigits_isSome (x : ℚ) (p : ℤ)
    (h : toDouble ((⌊x / (10 : ℚ) ^ p⌋ : ℚ) * (10 : ℚ) ^ p) = x ∨
      toDouble (((⌊x / (10 : ℚ) ^ p⌋ + 1 : ℤ) : ℚ) * (10 : ℚ) ^ p) = x) :
    ∃ s, pickDigits x p = some s := by
  unfold pickDigits
  simp only []
  split
  · split_ifs <;> exact ⟨_, rfl⟩
  · exact ⟨_, rfl⟩
  · exact ⟨_, rfl⟩
  · rename_i h1 h2
    have h1' := of_decide_eq_false h1
    have h2' := of_decide_eq_false h2
    rcases h with h | h
    · exact absurd h h1'
    · exact absurd h h2'

/-- The search stops at the first number of digits for which a candidate reads
back, provided there is one within the fuel. -/
theorem shortestFrom_spec (x : ℚ) (n : ℤ) :
    ∀ (fuel k j : Nat), j < fuel → (∃ s, pickDigits x (n - ((k + j : ℕ) : ℤ)) = some s) →
      ∃ s i, i ≤ j ∧ shortestFrom x n fuel k = (s, n - ((k + i : ℕ) : ℤ)) ∧
        pickDigits x (n - ((k + i : ℕ) : ℤ)) = some s := by
  intro fuel
  induction fuel with
  | zero => intro k j hj; omega
  | succ f ih =>
    intro k j hj hex
    unfold shortestFrom
    cases hp : pickDigits x (n - (k : ℤ)) with
    | some s =>
      refine ⟨s, 0, Nat.zero_le _, ?_, ?_⟩
      · simp
      · simpa using hp
    | none =>
      cases j with
      | zero =>
        obtain ⟨s, hs⟩ := hex
        simp only [Nat.add_zero] at hs
        rw [hp] at hs
        exact absurd hs (by simp)
      | succ j' =>
        have hex' : ∃ s, pickDigits x (n - ((k + 1 + j' : ℕ) : ℤ)) = some s := by
          have : k + 1 + j' = k + (j' + 1) := by omega
          rw [this]
          exact hex
        obtain ⟨s, i, hi, h1, h2⟩ := ih (k + 1) j' (by omega) hex'
        refine ⟨s, i + 1, by omega, ?_, ?_⟩
        · have : k + (i + 1) = k + 1 + i := by omega
          rw [this]
          simpa using h1
        · have : k + (i + 1) = k + 1 + i := by omega
          rw [this]
          exact h2

theorem toDouble_zero : toDouble 0 = 0 := by
  unfold toDouble
  simp

/-- Below `100 * 2 ^ 46` the shortest decimal that reads back as the Number
`a / 100` is the decimal `a / 100` itself. -/
theorem shortest_div_hundred_aux (a : ℕ) (h2 : 2 ≤ a) (hlt : a < 100 * 2 ^ 46) :
    toDouble ((a : ℚ) / 100) ≠ 0 ∧ 1 ≤ (shortest (toDouble ((a : ℚ) / 100))).1 ∧ -2 ≤ (shortest (toDouble ((a : ℚ) / 100))).2 ∧
    decimalValue (shortest (toDouble ((a : ℚ) / 100))) = (a : ℚ) / 100 := by
  have haq : (2 : ℚ) ≤ (a : ℚ) := by exact_mod_cast h2
  have haq2 : (a : ℚ) ≤ 100 * 2 ^ 46 - 1 := by
    have : a + 1 ≤ 100 * 2 ^ 46 := hlt
    have : ((a + 1 : ℕ) : ℚ) ≤ ((100 * 2 ^ 46 : ℕ) : ℚ) := by exact_mod_cast this
    push_cast at this
    linarith
  have h46 : (2 : ℚ) ^ (46 : ℤ) = 2 ^ 46 := by norm_num
  have hx0pos : (0 : ℚ) < (a : ℚ) / 100 := by positivity
  have hx0le : (a : ℚ) / 100 ≤ (2 : ℚ) ^ (46 : ℤ) - 1 / 100 := by
    rw [h46]
    linarith
  have ez := toDouble_err_small ((a : ℚ) / 100) hx0pos (by linarith)
  generalize hx : toDouble ((a : ℚ) / 100) = x at ez ⊢
  have ez' := abs_le.1 ez
  have hxge : (1 : ℚ) / 100 ≤ x := by linarith
  have hxpos : 0 < x := by linarith
  have hxlt : x < (10 : ℚ) ^ (14 : ℤ) := by
    have : (2 : ℚ) ^ (46 : ℤ) ≤ (10 : ℚ) ^ (14 : ℤ) := by norm_num
    linarith
  -- the decimal exponent
  have hn1 : -2 ≤ scaleExp 10 x :=
    le_scaleExp_of_le 10 (by norm_num) x hxpos (-2) (by norm_num; linarith)
  have hn2 : scaleExp 10 x < 14 :=
    scaleExp_lt_of_lt 10 (by norm_num) x hxpos 14 (by exact_mod_cast hxlt)
  -- a candidate reads back at the position of the cents
  have hpos2 : (10 : ℚ) ^ (-2 : ℤ) = 1 / 100 := by norm_num
  have hcand : ∃ s, pickDigits x (-2) = some s := by
    apply pickDigits_isSome
    rw [hpos2]
    by_cases hle : (a : ℚ) / 100 ≤ x
    · left
      have hf : ⌊x / (1 / 100)⌋ = (a : ℤ) := by
        rw [Int.floor_eq_iff]
        push_cast
        constructor <;> linarith
      rw [hf]
      push_cast
      rw [← hx]
      congr 1
      ring
    · right
      have hf : ⌊x / (1 / 100)⌋ = (a : ℤ) - 1 := by
        rw [Int.floor_eq_iff]
        push_cast
        constructor <;> linarith
      rw [hf]
      push_cast
      rw [← hx]
      congr 1
      ring
  -- so the search stops there at the latest
  obtain ⟨j, hj⟩ : ∃ j : ℕ, (j : ℤ) = scaleExp 10 x + 2 := ⟨(scaleExp 10 x + 2).toNat, by omega⟩
  have hcand' : ∃ s, pickDigits x (scaleExp 10 x + 1 - ((1 + j : ℕ) : ℤ)) = some s := by
    have : scaleExp 10 x + 1 - ((1 + j : ℕ) : ℤ) = -2 := by push_cast; omega
    rw [this]
    exact hcand
  obtain ⟨s, i, hi, hres, hpick⟩ :=
    shortestFrom_spec x (scaleExp 10 x + 1) 17 1 j (by omega) hcand'
  obtain ⟨hback, hfloor⟩ := pickDigits_sound x _ s hpick
  refine ⟨hxpos.ne', ?_⟩
  unfold shortest decimalValue
  rw [hres]
  simp only []
  generalize hp : scaleExp 10 x + 1 - ((1 + i : ℕ) : ℤ) = p at hback hfloor ⊢
  have hpge : -2 ≤ p := by
    rw [← hp]
    push_cast
    omega
  have h10 : (0 : ℚ) < (10 : ℚ) ^ p := by positivity
  have hs0 : 0 ≤ s := le_trans (Int.floor_nonneg.2 (by positivity)) hfloor
  have hy0 : (0 : ℚ) ≤ (s : ℚ) * (10 : ℚ) ^ p := by
    have : (0 : ℚ) ≤ (s : ℚ) := by exact_mod_cast hs0
    positivity
  have hyne : (s : ℚ) * (10 : ℚ) ^ p ≠ 0 := by
    intro h0
    rw [h0, toDouble_zero] at hback
    linarith
  have hypos : (0 : ℚ) < (s : ℚ) * (10 : ℚ) ^ p := lt_of_le_of_ne hy0 (Ne.symm hyne)
  have hs1 : 1 ≤ s := by
    have : (0 : ℚ) < (s : ℚ) := by
      by_contra hle
      have : (s : ℚ) * (10 : ℚ) ^ p ≤ 0 := mul_nonpos_of_nonpos_of_nonneg (not_lt.1 hle) h10.le
      linarith
    have : 0 < s := by exact_mod_cast this
    omega
  refine ⟨hs1, hpge, ?_⟩
  have hclose := close_of_toDouble_eq ((a : ℚ) / 100) ((s : ℚ) * (10 : ℚ) ^ p) hx0pos hypos
    hx0le (by rw [hback, hx])
  -- both are whole numbers of cents
  obtain ⟨q, hq⟩ : ∃ q : ℕ, (q : ℤ) = p + 2 := ⟨(p + 2).toNat, by omega⟩
  have hpq : (10 : ℚ) ^ p = (10 : ℚ) ^ q / 100 := by
    have : p = (q : ℤ) - 2 := by omega
    rw [this, zpow_sub₀ (by norm_num : (10 : ℚ) ≠ 0), zpow_natCast]
    norm_num
  rw [hpq] at hclose ⊢
  have hint : |((s * 10 ^ q - (a : ℤ) : ℤ) : ℚ)| < 1 := by
    have e : ((s * 10 ^ q - (a : ℤ) : ℤ) : ℚ) =
        100 * ((s : ℚ) * ((10 : ℚ) ^ q / 100) - (a : ℚ) / 100) := by
      push_cast
      ring
    rw [e, abs_mul]
    have : |(100 : ℚ)| = 100 := abs_of_pos (by norm_num)
    rw [this]
    linarith
  have hzero : s * 10 ^ q - (a : ℤ) = 0 := by
    have : |s * 10 ^ q - (a : ℤ)| < 1 := by exact_mod_cast hint
    exact Int.abs_lt_one_iff.1 this
  have : ((s * 10 ^ q : ℤ) : ℚ) = ((a : ℤ) : ℚ) := by
    have : s * 10 ^ q = (a : ℤ) := by omega
    rw [this]
  push_cast at this
  rw [← this]
  ring

/-- Up to `100 * 2 ^ 46` the shortest decimal that reads back as the Number
`a / 100` is the decimal `a / 100` itself, with its last digit no further right
than the cents. -/
theorem shortest_div_hundred (a : ℕ) (h1 : 1 ≤ a) (hle : a ≤ 100 * 2 ^ 46) :
    toDouble ((a : ℚ) / 100) ≠ 0 ∧ 1 ≤ (shortest (toDouble ((a : ℚ) / 100))).1 ∧ -2 ≤ (shortest (toDouble ((a : ℚ) / 100))).2 ∧
    decimalValue (shortest (toDouble ((a : ℚ) / 100))) = (a : ℚ) / 100 := by
  by_cases e1 : a = 1
  · subst e1
    decide!
  by_cases e2 : a = 100 * 2 ^ 46
  · subst e2
    decide!
  exact shortest_div_hundred_aux a (by omega) (by omega)


/-! ## Digits and their reading -/

theorem digit_cases (d : Nat) (hd : d < 10) :
    digitValue (digit d) = some d ∧ (digit d).toNat - 48 = d ∧ digit d ≠ '.' ∧ digit d ≠ 'T' := by
  interval_cases d <;> decide

theorem readDigits_isDigits (l : List Char) (h : IsDigits l) :
    ∀ acc, readDigits acc l = some (numVal acc l) := by
  induction l with
  | nil => intro acc; rfl
  | cons c cs ih =>
    intro acc
    obtain ⟨d, hd, rfl⟩ := h c (List.mem_cons_self _ _)
    have hc := digit_cases d hd
    unfold readDigits numVal
    rw [hc.1]
    simp only [List.foldl_cons, hc.2.1]
    exact ih (fun c hcm => h c (List.mem_cons_of_mem _ hcm)) _

theorem numVal_append (acc : Nat) (l1 l2 : List Char) :
    numVal acc (l1 ++ l2) = numVal (numVal acc l1) l2 := by
  unfold numVal
  rw [List.foldl_append]

theorem numVal_acc (l : List Char) : ∀ acc, numVal acc l = acc * 10 ^ l.length + numVal 0 l := by
  induction l with
  | nil => intro acc; simp [numVal]
  | cons c cs ih =>
    intro acc
    have h1 : numVal acc (c :: cs) = numVal (acc * 10 + (c.toNat - 48)) cs := rfl
    have h2 : numVal 0 (c :: cs) = numVal (0 * 10 + (c.toNat - 48)) cs := rfl
    rw [h1, h2, ih (acc * 10 + (c.toNat - 48)), ih (0 * 10 + (c.toNat - 48))]
    simp only [List.length_cons, pow_succ]
    ring

theorem isDigits_append (l1 l2 : List Char) (h1 : IsDigits l1) (h2 : IsDigits l2) :
    IsDigits (l1 ++ l2) := by
  intro c hc
  rcases List.mem_append.1 hc with h | h
  · exact h1 c h
  · exact h2 c h

theorem isDigits_zeros (m : Nat) : IsDigits (zeros m) := by
  intro c hc
  have : c = '0' := List.eq_of_mem_replicate hc
  exact ⟨0, by norm_num, by rw [this]; rfl⟩

theorem numVal_zeros (m : Nat) : numVal 0 (zeros m) = 0 := by
  induction m with
  | zero => rfl
  | succ k ih =>
    have : zeros (k + 1) = '0' :: zeros k := rfl
    rw [this]
    exact ih

theorem digitsFuel_isDigits : ∀ fuel n, IsDigits (digitsFuel fuel n) := by
  intro fuel
  induction fuel with
  | zero => intro n c hc; simp [digitsFuel] at hc
  | succ f ih =>
    intro n
    unfold digitsFuel
    have hd : IsDigits [digit n] := by
      intro c hc
      rw [List.mem_singleton] at hc
      exact ⟨n % 10, Nat.mod_lt _ (by norm_num), by rw [hc]; simp [digit]⟩
    split
    · exact hd
    · exact isDigits_append _ _ (ih _) hd

theorem digitsFuel_spec : ∀ fuel n, n < fuel →
    numVal 0 (digitsFuel fuel n) = n ∧ digitsFuel fuel n ≠ [] ∧
    (1 ≤ n → 10 ^ ((digitsFuel fuel n).length - 1) ≤ n) := by
  intro fuel
  induction fuel with
  | zero => intro n h; omega
  | succ f ih =>
    intro n hn
    unfold digitsFuel
    have hval : (digit n).toNat - 48 = n % 10 := by
      have := (digit_cases (n % 10) (Nat.mod_lt _ (by norm_num))).2.1
      simpa [digit] using this
    split
    · rename_i hlt
      refine ⟨?_, by simp, fun _ => by simp; omega⟩
      show 0 * 10 + ((digit n).toNat - 48) = n
      rw [hval]
      omega
    · rename_i hge
      obtain ⟨h1, h2, h3⟩ := ih (n / 10) (by omega)
      refine ⟨?_, by simp, fun _ => ?_⟩
      · rw [numVal_append, h1]
        show n / 10 * 10 + ((digit n).toNat - 48) = n
        rw [hval]
        omega
      · have hlen : 1 ≤ (digitsFuel f (n / 10)).length := by
          cases hl : digitsFuel f (n / 10) with
          | nil => exact absurd hl h2
          | cons a t => simp
        have h3' := h3 (by omega)
        simp only [List.length_append, List.length_singleton, Nat.add_sub_cancel]
        calc 10 ^ (digitsFuel f (n / 10)).length
            = 10 ^ ((digitsFuel f (n / 10)).length - 1) * 10 := by
              rw [← pow_succ]
              congr 1
              omega
          _ ≤ n / 10 * 10 := Nat.mul_le_mul_right _ h3'
          _ ≤ n := Nat.div_mul_le_self n 10

theorem decimalDigits_spec (n : Nat) :
    IsDigits (decimalDigits n) ∧ numVal 0 (decimalDigits n) = n ∧ decimalDigits n ≠ [] ∧
    (1 ≤ n → 10 ^ ((decimalDigits n).length - 1) ≤ n) := by
  obtain ⟨h1, h2, h3⟩ := digitsFuel_spec (n + 1) n (Nat.lt_succ_self n)
  exact ⟨digitsFuel_isDigits _ _, h1, h2, h3⟩

theorem takeWhile_digits (l1 l2 : List Char) (h : IsDigits l1) :
    (l1 ++ '.' :: l2).takeWhile (fun c => c != '.') = l1 ∧
    (l1 ++ '.' :: l2).dropWhile (fun c => c != '.') = '.' :: l2 := by
  induction l1 with
  | nil => simp
  | cons c cs ih =>
    obtain ⟨d, hd, hc⟩ := h c (List.mem_cons_self _ _)
    have hne : c ≠ '.' := by rw [hc]; exact (digit_cases d hd).2.2.1
    have ih' := ih (fun c hcm => h c (List.mem_cons_of_mem _ hcm))
    simp [List.takeWhile_cons, List.dropWhile_cons, hne, ih'.1, ih'.2]

theorem dropWhile_digits (l : List Char) (h : IsDigits l) :
    l.dropWhile (fun c => c != '.') = [] := by
  induction l with
  | nil => rfl
  | cons c cs ih =>
    obtain ⟨d, hd, hc⟩ := h c (List.mem_cons_self _ _)
    have hne : c ≠ '.' := by rw [hc]; exact (digit_cases d hd).2.2.1
    simp [List.dropWhile_cons, hne, ih (fun c hcm => h c (List.mem_cons_of_mem _ hcm))]

theorem readNat_digits (l : List Char) (h : IsDigits l) (hne : l ≠ []) :
    readNat l = some (numVal 0 l) := by
  cases l with
  | nil => exact absurd rfl hne
  | cons c cs => exact readDigits_isDigits _ h 0

theorem readDecimal_whole (l : List Char) (h : IsDigits l) (hne : l ≠ []) :
    readDecimal l = some ((numVal 0 l : ℕ) : ℚ) := by
  unfold readDecimal
  rw [dropWhile_digits l h]
  simp only []
  rw [readNat_digits l h hne]

theorem readDecimal_point (l1 l2 : List Char) (h1 : IsDigits l1) (hne1 : l1 ≠ [])
    (h2 : IsDigits l2) (hne2 : l2 ≠ []) :
    readDecimal (l1 ++ '.' :: l2) =
      some (((numVal 0 l1 : ℕ) : ℚ) + ((numVal 0 l2 : ℕ) : ℚ) / (10 : ℚ) ^ l2.length) := by
  unfold readDecimal
  obtain ⟨ht, hd⟩ := takeWhile_digits l1 l2 h1
  rw [hd]
  simp only []
  rw [ht, readNat_digits l1 h1 hne1, readNat_digits l2 h2 hne2]

/-- In the range printed without an exponent, the rendering of the digits `ds`
with the point after `n` of them reads back as `ds * 10 ^ (n - length)`. -/
theorem formatDigits_read (ds : List Char) (n : ℤ) (h : IsDigits ds) (hne : ds ≠ [])
    (hlo : -6 < n) (hhi : n ≤ 21) :
    readDecimal (formatDigits ds n) =
      some (((numVal 0 ds : ℕ) : ℚ) * (10 : ℚ) ^ (n - (ds.length : ℤ))) := by
  have hk : 1 ≤ ds.length := by
    cases ds with
    | nil => exact absurd rfl hne
    | cons a t => simp
  unfold formatDigits
  simp only []
  by_cases c1 : (ds.length : ℤ) ≤ n ∧ n ≤ 21
  · rw [if_pos c1]
    obtain ⟨m, hm⟩ : ∃ m : ℕ, (m : ℤ) = n - (ds.length : ℤ) :=
      ⟨(n - (ds.length : ℤ)).toNat, by omega⟩
    have hm' : (n - (ds.length : ℤ)).toNat = m := by omega
    rw [hm', readDecimal_whole _ (isDigits_append _ _ h (isDigits_zeros m)) (by simp [hne]),
      numVal_append, numVal_acc (zeros m), numVal_zeros, ← hm, zpow_natCast]
    simp [zeros]
  · rw [if_neg c1]
    have hnk : n < (ds.length : ℤ) := by
      by_contra hge
      exact c1 ⟨by omega, hhi⟩
    by_cases c2 : 0 < n ∧ n ≤ 21
    · rw [if_pos c2]
      obtain ⟨m, hm⟩ : ∃ m : ℕ, (m : ℤ) = n := ⟨n.toNat, by omega⟩
      have hm' : n.toNat = m := by omega
      have hmk : m < ds.length := by omega
      have hm0 : 0 < m := by omega
      rw [hm']
      have ht : IsDigits (ds.take m) := fun c hc => h c (List.mem_of_mem_take hc)
      have hd : IsDigits (ds.drop m) := fun c hc => h c (List.mem_of_mem_drop hc)
      have htne : ds.take m ≠ [] := by
        intro he
        have := congrArg List.length he
        rw [List.length_take, List.length_nil] at this
        omega
      have hdne : ds.drop m ≠ [] := by
        intro he
        have := congrArg List.length he
        rw [List.length_drop, List.length_nil] at this
        omega
      rw [readDecimal_point _ _ ht htne hd hdne]
      have hsplit : numVal 0 ds =
          numVal 0 (ds.take m) * 10 ^ (ds.drop m).length + numVal 0 (ds.drop m) := by
        conv_lhs => rw [← List.take_append_drop m ds]
        rw [numVal_append, numVal_acc]
      have hlen : (ds.drop m).length = ds.length - m := List.length_drop m ds
      have hpow : (10 : ℚ) ^ (n - (ds.length : ℤ)) = 1 / (10 : ℚ) ^ (ds.drop m).length := by
        rw [hlen, ← hm]
        have : ((m : ℤ) - (ds.length : ℤ)) = -(((ds.length - m : ℕ)) : ℤ) := by omega
        rw [this, zpow_neg, zpow_natCast]
        simp
      rw [hpow, hsplit]
      congr 1
      push_cast
      field_simp
    · rw [if_neg c2]
      have c3 : -6 < n ∧ n ≤ 0 := ⟨hlo, by
        by_contra hpos
        exact c2 ⟨by omega, hhi⟩⟩
      rw [if_pos c3]
      obtain ⟨m, hm⟩ : ∃ m : ℕ, (m : ℤ) = -n := ⟨(-n).toNat, by omega⟩
      have hm' : (-n).toNat = m := by omega
      rw [hm']
      have hz : IsDigits ['0'] := isDigits_zeros 1
      have hl2 : IsDigits (zeros m ++ ds) := isDigits_append _ _ (isDigits_zeros m) h
      have e : '0' :: '.' :: (zeros m ++ ds) = ['0'] ++ '.' :: (zeros m ++ ds) := rfl
      rw [e, readDecimal_point _ _ hz (by simp) hl2 (by simp [hne])]
      have h0 : numVal 0 ['0'] = 0 := rfl
      have hv : numVal 0 (zeros m ++ ds) = numVal 0 ds := by
        rw [numVal_append, numVal_zeros]
      have hlen : (zeros m ++ ds).length = m + ds.length := by simp [zeros]
      have hpow : (10 : ℚ) ^ (n - (ds.length : ℤ)) = 1 / (10 : ℚ) ^ (m + ds.length) := by
        have : n - (ds.length : ℤ) = -(((m + ds.length : ℕ)) : ℤ) := by push_cast; omega
        rw [this, zpow_neg, zpow_natCast]
        simp
      rw [h0, hv, hlen, hpow]
      congr 1
      push_cast
      ring

theorem stripZeros_spec : ∀ (fuel s : ℕ) (p : ℤ),
    ((stripZeros fuel s p).1 : ℚ) * (10 : ℚ) ^ (stripZeros fuel s p).2 = (s : ℚ) * (10 : ℚ) ^ p ∧
    p ≤ (stripZeros fuel s p).2 ∧ (1 ≤ s → 1 ≤ (stripZeros fuel s p).1) := by
  intro fuel
  induction fuel with
  | zero => intro s p; exact ⟨rfl, le_refl _, fun h => h⟩
  | succ f ih =>
    intro s p
    unfold stripZeros
    split
    · rename_i hc
      obtain ⟨h1, h2, h3⟩ := ih (s / 10) (p + 1)
      refine ⟨?_, by omega, fun _ => h3 (by omega)⟩
      rw [h1, zpow_add₀ (by norm_num : (10 : ℚ) ≠ 0), zpow_one]
      have hs : s = s / 10 * 10 := by omega
      have : (s : ℚ) = ((s / 10 : ℕ) : ℚ) * 10 := by
        have := congrArg (fun t : ℕ => (t : ℚ)) hs
        simpa using this
      rw [this]
      ring
    · exact ⟨rfl, le_refl _, fun h => h⟩

/-- A Number printed without an exponent reads back as the decimal chosen by the
digit search. -/
theorem numberToString_read (x : ℚ) (hx : x ≠ 0) (hs : 1 ≤ (shortest x).1)
    (hp : -6 ≤ (shortest x).2) (hv : decimalValue (shortest x) < (10 : ℚ) ^ (21 : ℕ)) :
    readDecimal (numberToString x).data = some (decimalValue (shortest x)) := by
  unfold numberToString
  rw [if_neg hx]
  simp only []
  obtain ⟨s, hsn⟩ : ∃ s : ℕ, (s : ℤ) = (shortest x).1 := ⟨(shortest x).1.toNat, by omega⟩
  have hst : (shortest x).1.toNat = s := by omega
  rw [hst]
  have hs1 : 1 ≤ s := by omega
  obtain ⟨h1, h2, h3⟩ := stripZeros_spec 17 s (shortest x).2
  generalize stripZeros 17 s (shortest x).2 = sn at h1 h2 h3 ⊢
  obtain ⟨d1, d2, d3, d4⟩ := decimalDigits_spec sn.1
  have hsn1 := h3 hs1
  have hlen : 1 ≤ (decimalDigits sn.1).length := by
    cases hl : decimalDigits sn.1 with
    | nil => exact absurd hl d3
    | cons a t => simp
  have hval : decimalValue (shortest x) = (sn.1 : ℚ) * (10 : ℚ) ^ sn.2 := by
    unfold decimalValue
    rw [h1, ← hsn]
    simp
  -- the position of the point
  have hupper : sn.2 + ((decimalDigits sn.1).length : ℤ) ≤ 21 := by
    by_contra hgt
    have hgt' : 21 ≤ sn.2 + (((decimalDigits sn.1).length - 1 : ℕ) : ℤ) := by omega
    have hd4 : ((10 : ℚ) ^ ((decimalDigits sn.1).length - 1)) ≤ (sn.1 : ℚ) := by
      exact_mod_cast d4 hsn1
    have : (10 : ℚ) ^ (21 : ℕ) ≤ (sn.1 : ℚ) * (10 : ℚ) ^ sn.2 := by
      calc (10 : ℚ) ^ (21 : ℕ) = (10 : ℚ) ^ (21 : ℤ) := by norm_num
        _ ≤ (10 : ℚ) ^ (sn.2 + (((decimalDigits sn.1).length - 1 : ℕ) : ℤ)) :=
            zpow_le_zpow_right₀ (by norm_num) hgt'
        _ = (10 : ℚ) ^ ((decimalDigits sn.1).length - 1) * (10 : ℚ) ^ sn.2 := by
            rw [zpow_add₀ (by norm_num : (10 : ℚ) ≠ 0), zpow_natCast]
            ring
        _ ≤ (sn.1 : ℚ) * (10 : ℚ) ^ sn.2 := by gcongr
    rw [hval] at hv
    linarith
  show readDecimal (formatDigits (decimalDigits sn.1) (sn.2 + ((decimalDigits sn.1).length : ℤ)))
    = _
  rw [formatDigits_read _ _ d1 d3 (by omega) hupper, d2, hval, add_sub_cancel_right]

theorem toDouble_zero_hundredths : toDouble (((0 : ℕ) : ℚ) / 100) = 0 := by decide!

theorem toDouble_top_hundredths :
    toDouble (((100 * 2 ^ 46 : ℕ) : ℚ) / 100) = 2 ^ 46 := by decide!

/-- Up to `100 * 2 ^ 46` the Number `a / 100` prints as a plain decimal numeral
that reads back as exactly `a / 100`. -/
theorem numberToString_div_hundred (a : ℕ) (hle : a ≤ 100 * 2 ^ 46) :
    readDecimal (numberToString (toDouble ((a : ℚ) / 100))).data = some ((a : ℚ) / 100) := by
  by_cases h0 : a = 0
  · subst h0
    rw [toDouble_zero_hundredths]
    decide!
  obtain ⟨hx, hs, hp, hv⟩ := shortest_div_hundred a (by omega) hle
  rw [numberToString_read _ hx hs (by omega) ?_, hv]
  rw [hv]
  have : (a : ℚ) ≤ ((100 * 2 ^ 46 : ℕ) : ℚ) := by exact_mod_cast hle
  have h2 : (((100 * 2 ^ 46 : ℕ) : ℚ)) / 100 < (10 : ℚ) ^ (21 : ℕ) := by norm_num
  calc (a : ℚ) / 100 ≤ ((100 * 2 ^ 46 : ℕ) : ℚ) / 100 := by gcongr
    _ < _ := h2

/-- Up to `100 * 2 ^ 46` the Number `a / 100` is within `1 / 256` of the quotient. -/
theorem div_hundred_err (a : ℕ) (hle : a ≤ 100 * 2 ^ 46) :
    |toDouble ((a : ℚ) / 100) - (a : ℚ) / 100| ≤ 1 / 256 := by
  by_cases h0 : a = 0
  · subst h0
    rw [toDouble_zero_hundredths]
    norm_num
  by_cases e2 : a = 100 * 2 ^ 46
  · subst e2
    rw [toDouble_top_hundredths]
    norm_num
  have hlt : a + 1 ≤ 100 * 2 ^ 46 := by omega
  have hq : ((a + 1 : ℕ) : ℚ) ≤ ((100 * 2 ^ 46 : ℕ) : ℚ) := by exact_mod_cast hlt
  push_cast at hq
  have hpos : (0 : ℚ) < (a : ℚ) / 100 := by
    have : (0 : ℚ) < (a : ℚ) := by exact_mod_cast Nat.pos_of_ne_zero h0
    positivity
  have h46 : (2 : ℚ) ^ (46 : ℤ) = 2 ^ 46 := by norm_num
  exact toDouble_err_small _ hpos (by rw [h46]; linarith)

/-! ## The date of `toISOString` -/

theorem digit_ne_T (n : ℕ) : digit n ≠ 'T' := by
  have := (digit_cases (n % 10) (Nat.mod_lt _ (by norm_num))).2.2.2
  simpa [digit] using this

theorem isoDate_no_T (d : Date) :
    'T' ∉ isoYear d.year ++ '-' :: pad2 d.month ++ '-' :: pad2 d.day := by
  have hy : 'T' ∉ isoYear d.year := by
    unfold isoYear
    split <;>
      simp [pad6, pad4, pad3, pad2, (digit_ne_T _).symm]
  simp [pad2, (digit_ne_T _).symm, hy]

/-! ## Integers are exact -/

theorem roundHalfEven_intCast (m : ℤ) : roundHalfEven (m : ℚ) = m := by
  unfold roundHalfEven
  simp

/-- A non-negative integer below `2 ^ 53` is a Number. -/
theorem ofNat_exact (n : ℕ) (h : n < 2 ^ 53) : ofNat n = (n : ℚ) := by
  unfold ofNat
  by_cases h0 : n = 0
  · subst h0
    simp [toDouble]
  have hpos : (0 : ℚ) < (n : ℚ) := by exact_mod_cast Nat.pos_of_ne_zero h0
  have hlt : (n : ℚ) < ((2 : ℕ) : ℚ) ^ (53 : ℤ) := by
    have h1 : (n : ℚ) < ((2 ^ 53 : ℕ) : ℚ) := by exact_mod_cast h
    have h2 : ((2 ^ 53 : ℕ) : ℚ) = ((2 : ℕ) : ℚ) ^ (53 : ℤ) := by norm_num
    rw [← h2]
    exact h1
  have hge : ((2 : ℕ) : ℚ) ^ (0 : ℤ) ≤ (n : ℚ) := by
    have : (1 : ℚ) ≤ (n : ℚ) := by exact_mod_cast Nat.pos_of_ne_zero h0
    simpa using this
  have hs1 := scaleExp_lt_of_lt 2 (le_refl 2) n hpos 53 hlt
  have hs0 := le_scaleExp_of_le 2 (le_refl 2) n hpos 0 hge
  have hu : ulpExp (n : ℚ) = scaleExp 2 n - 52 := by
    unfold ulpExp
    exact max_eq_left (by omega)
  obtain ⟨t, ht⟩ : ∃ t : ℕ, (t : ℤ) = 52 - scaleExp 2 (n : ℚ) := ⟨(52 - scaleExp 2 (n : ℚ)).toNat, by omega⟩
  have he : ulpExp (n : ℚ) = -(t : ℤ) := by omega
  unfold toDouble
  rw [if_neg hpos.ne', he]
  have hq : (n : ℚ) / (2 : ℚ) ^ (-(t : ℤ)) = (((n * 2 ^ t : ℕ) : ℤ) : ℚ) := by
    rw [zpow_neg, zpow_natCast]
    push_cast
    field_simp
  rw [hq, roundHalfEven_intCast, zpow_neg, zpow_natCast]
  push_cast
  field_simp

end JS

namespace Pipeline
open JS

/-- `new Date().toISOString().split('T')[0]` is the calendar-date part. -/
theorem isoDate_eq (now : JS.Date) :
    isoDate now = String.mk (isoYear now.year ++ '-' :: pad2 now.month ++ '-' :: pad2 now.day) := by
  have hsplit : (now.toISOString.data).splitOn 'T' =
      (isoYear now.year ++ '-' :: pad2 now.month ++ '-' :: pad2 now.day) ::
        (pad2 now.hours ++ ':' :: pad2 now.minutes ++ ':' :: pad2 now.seconds ++ '.' ::
          pad3 now.milliseconds ++ ['Z']).splitOn 'T' := by
    have e : now.toISOString.data =
        (isoYear now.year ++ '-' :: pad2 now.month ++ '-' :: pad2 now.day) ++ 'T' ::
        (pad2 now.hours ++ ':' :: pad2 now.minutes ++ ':' :: pad2 now.seconds ++ '.' ::
          pad3 now.milliseconds ++ ['Z']) := by
      simp [Date.toISOString]
    rw [e]
    unfold List.splitOn
    apply List.splitOnP_first
    · intro c hc hce
      have : c = 'T' := by simpa using hce
      exact isoDate_no_T now (this ▸ hc)
    · simp
  unfold isoDate JS.first JS.split
  show (List.headD (List.map String.mk (List.splitOn 'T' now.toISOString.data)) "") = _
  rw [hsplit]
  rfl

/-- For an amount a Number holds exactly, `amount / 100` is the quotient rounded. -/
theorem majorUnits_eq (a : ℕ) (h : a < 2 ^ 53) : majorUnits a = toDouble ((a : ℚ) / 100) := by
  unfold majorUnits JS.div
  rw [ofNat_exact a h, ofNat_exact 100 (by norm_num)]
  norm_num

theorem map_toList_mk (l : List (List Char)) :
    (l.map String.mk).map String.toList = l := by
  induction l with
  | nil => rfl
  | cons a t ih => simp [ih]

theorem firstName_data (name : String) :
    (firstName name).data = (name.data.splitOn ' ').headD [] := by
  unfold firstName JS.first JS.split
  show (List.headD (List.map String.mk (List.splitOn ' ' name.data)) "").data = _
  cases List.splitOn ' ' name.data <;> rfl

theorem lastName_data (name : String) :
    (lastName name).data = [' '].intercalate ((name.data.splitOn ' ').drop 1) := by
  unfold lastName JS.join JS.split
  show [' '].intercalate (List.map String.toList
    (List.drop 1 (List.map String.mk (List.splitOn ' ' name.data)))) = _
  rw [← List.map_drop, map_toList_mk]

theorem split_no_space (l : List Char) (h : ' ' ∉ l) : l.splitOn ' ' = [l] := by
  unfold List.splitOn
  apply List.splitOnP_eq_single
  intro x hx hxe
  have : x = ' ' := by simpa using hxe
  exact h (this ▸ hx)

theorem split_space (l : List Char) (h : ' ' ∈ l) :
    ∃ t t2 rest, l.splitOn ' ' = t :: t2 :: rest ∧ ' ' ∉ t := by
  obtain ⟨pre, post, hl, hpre⟩ := List.eq_append_cons_of_mem h
  have hf : (pre ++ ' ' :: post).splitOn ' ' = pre :: post.splitOn ' ' := by
    unfold List.splitOn
    apply List.splitOnP_first
    · intro x hx hxe
      have : x = ' ' := by simpa using hxe
      exact hpre (this ▸ hx)
    · simp
  have hne : post.splitOn ' ' ≠ [] := List.splitOnP_ne_nil _ _
  cases hp : post.splitOn ' ' with
  | nil => exact absurd hp hne
  | cons t2 rest => exact ⟨pre, t2, rest, by rw [hl, hf, hp], hpre⟩

theorem name_join (name : String) (h : ' ' ∈ name.data) :
    firstName name ++ " " ++ lastName name = name := by
  obtain ⟨t, t2, rest, hsp, -⟩ := split_space name.data h
  have hi := @List.intercalate_splitOn Char name.data ' ' _
  apply String.ext
  simp only [String.data_append, firstName_data, lastName_data, hsp]
  rw [hsp] at hi
  rw [← hi]
  simp [List.intercalate]

/-! ## The delivery in which every call succeeds, and what each helper leaves alone -/

theorem createXeroInvoice_ok (u : Upstream) (w : World) (customer : Customer) (amount : Nat)
    (cid iid : String) (hg : u.getContacts = none) (hc : u.createContacts = .ok cid)
    (hi : u.createInvoices = .ok iid) :
    createXeroInvoice u w customer amount =
      ({ w with
          contacts := contactsAfter w customer cid
          invoices := w.invoices ++
            [newInvoice (resolvedContact w customer cid) amount u.invoiceClock iid] },
       .ok (newInvoice (resolvedContact w customer cid) amount u.invoiceClock iid)) := by
  unfold createXeroInvoice contactsAfter resolvedContact
  rw [hg]
  cases hf : findContact w.contacts customer with
  | some contact => simp [submitInvoice, hi]
  | none => simp [submitInvoice, hi, hc]

theorem generatePandaDocContract_ok (env : Env) (u : Upstream) (w : World)
    (customer : Customer) (amount : Nat) (did : String)
    (hd : u.createFromTemplate = .ok did) (hs : u.send = none) :
    generatePandaDocContract env u w customer amount =
      ({ w with
          documents := w.documents ++ [newDocument env customer amount u.contractClock did]
          sent := w.sent ++ [signatureRequest did] },
       .ok (newDocument env customer amount u.contractClock did)) := by
  simp [generatePandaDocContract, hd, hs, newDocument]

theorem handler_ok (env : Env) (u : Upstream) (w : World) (event : Event)
    (customer : Customer) (cid iid did : String)
    (hev : event.type = "checkout.session.completed")
    (hr : u.retrieve event.object.customer = .ok customer)
    (hg : u.getContacts = none) (hc : u.createContacts = .ok cid)
    (hi : u.createInvoices = .ok iid) (hd : u.createFromTemplate = .ok did)
    (hs : u.send = none) (ha : u.add = none) :
    handler env u w event =
      ({ contacts := contactsAfter w customer cid
         invoices := w.invoices ++
           [newInvoice (resolvedContact w customer cid) event.object.amount_total
             u.invoiceClock iid]
         documents := w.documents ++
           [newDocument env customer event.object.amount_total u.contractClock did]
         sent := w.sent ++ [signatureRequest did]
         transactions := w.transactions ++
           [transactionRecord customer event.object iid did] },
       acknowledged) := by
  unfold handler
  rw [if_pos hev]
  simp only [hr, createXeroInvoice_ok u w customer _ cid iid hg hc hi,
    generatePandaDocContract_ok env u _ customer _ did hd hs, storeTransaction, ha]
  rfl

/-- The transactions are only ever touched by `storeTransaction`. -/
theorem createXeroInvoice_frame (u : Upstream) (w : World) (customer : Customer) (amount : Nat) :
    (createXeroInvoice u w customer amount).1.documents = w.documents ∧
    (createXeroInvoice u w customer amount).1.sent = w.sent ∧
    (createXeroInvoice u w customer amount).1.transactions = w.transactions := by
  unfold createXeroInvoice submitInvoice
  cases u.getContacts <;> cases findContact w.contacts customer <;>
    cases u.createContacts <;> cases u.createInvoices <;> simp

theorem generatePandaDocContract_frame (env : Env) (u : Upstream) (w : World)
    (customer : Customer) (amount : Nat) :
    (generatePandaDocContract env u w customer amount).1.contacts = w.contacts ∧
    (generatePandaDocContract env u w customer amount).1.invoices = w.invoices ∧
    (generatePandaDocContract env u w customer amount).1.transactions = w.transactions := by
  unfold generatePandaDocContract
  cases u.createFromTemplate <;> cases u.send <;> simp

theorem handler_other_event (env : Env) (u : Upstream) (w : World) (event : Event)
    (hev : ¬ event.type = "checkout.session.completed") :
    handler env u w event = (w, acknowledged) := by
  unfold handler
  rw [if_neg hev]

theorem handler_retrieve_error (env : Env) (u : Upstream) (w : World) (event : Event)
    (msg : String) (hev : event.type = "checkout.session.completed")
    (hr : u.retrieve event.object.customer = .error msg) :
    handler env u w event = (w, failed msg) := by
  unfold handler
  rw [if_pos hev]
  simp only [hr]

theorem handler_retrieve_ok (env : Env) (u : Upstream) (w : World) (event : Event)
    (customer : Customer) (hev : event.type = "checkout.session.completed")
    (hr : u.retrieve event.object.customer = .ok customer) :
    handler env u w event =
      match createXeroInvoice u w customer event.object.amount_total with
      | (w1, .error msg) => (w1, failed msg)
      | (w1, .ok invoice) =>
        match generatePandaDocContract env u w1 customer event.object.amount_total with
        | (w2, .error msg) => (w2, failed msg)
        | (w2, .ok contract) =>
          match storeTransaction u w2 customer event.object invoice.InvoiceID contract.id with
          | (w3, .error msg) => (w3, failed msg)
          | (w3, .ok _) => (w3, acknowledged) := by
  unfold handler
  rw [if_pos hev]
  simp only [hr]

/-- The document `generatePandaDocContract` submits, once PandaDoc accepts it. -/
theorem generatePandaDocContract_document (env : Env) (u : Upstream) (w : World)
    (customer : Customer) (amount : Nat) (did : String) (hd : u.createFromTemplate = .ok did) :
    (generatePandaDocContract env u w customer amount).1.documents =
      w.documents ++ [newDocument env customer amount u.contractClock did] ∧
    ∀ contract, (generatePandaDocContract env u w customer amount).2 = .ok contract →
      contract = newDocument env customer amount u.contractClock did := by
  unfold generatePandaDocContract
  rw [hd]
  cases u.send with
  | some m => simp
  | none =>
    refine ⟨rfl, ?_⟩
    intro contract h
    simp only [Except.ok.injEq] at h
    exact h.symm

/-- C6: the document `generatePandaDocContract` submits has one recipient, with the
customer's email, whose `first_name` is the first piece of the customer's name
split at spaces and whose `last_name` is the remaining pieces joined with single
spaces.  A name without a space is its own first name and has the empty last name;
for a name with a space, `first_name + " " + last_name` is the name again.
`Ada Lovelace` gives `Ada` and `Lovelace`; `Prince` gives `Prince` and the empty
string. -/
theorem C6_name_split (env : Env) (u : Upstream) (w : World) (customer : Customer)
    (amount : Nat) (did : String) (hd : u.createFromTemplate = .ok did) :
    ∃ document recipient,
      (generatePandaDocContract env u w customer amount).1.documents =
        w.documents ++ [document] ∧
      (∀ contract, (generatePandaDocContract env u w customer amount).2 = .ok contract →
        contract = document) ∧
      document.recipients = [recipient] ∧
      recipient.email = customer.email ∧ recipient.role = "Client" ∧
      recipient.first_name.data = (customer.name.data.splitOn ' ').headD [] ∧
      recipient.last_name.data =
        [' '].intercalate ((customer.name.data.splitOn ' ').drop 1) ∧
      ' ' ∉ recipient.first_name.data ∧
      (' ' ∉ customer.name.data →
        recipient.first_name = customer.name ∧ recipient.last_name = "") ∧
      (' ' ∈ customer.name.data →
        recipient.first_name ++ " " ++ recipient.last_name = customer.name) ∧
      (customer.name = "Ada Lovelace" →
        recipient.first_name = "Ada" ∧ recipient.last_name = "Lovelace") ∧
      (customer.name = "Prince" →
        recipient.first_name = "Prince" ∧ recipient.last_name = "") := by
  obtain ⟨hdoc, hret⟩ := generatePandaDocContract_document env u w customer amount did hd
  refine ⟨newDocument env customer amount u.contractClock did,
    { email := customer.email, first_name := firstName customer.name,
      last_name := lastName customer.name, role := "Client" },
    hdoc, hret, rfl, rfl, rfl, firstName_data _, lastName_data _, ?_, ?_, ?_, ?_, ?_⟩
  · show ' ' ∉ (firstName customer.name).data
    rw [firstName_data]
    by_cases h : ' ' ∈ customer.name.data
    · obtain ⟨t, t2, rest, hsp, ht⟩ := split_space customer.name.data h
      rw [hsp]
      exact ht
    · rw [split_no_space customer.name.data h]
      exact h
  · intro h
    show firstName customer.name = customer.name ∧ lastName customer.name = ""
    have hsp := split_no_space customer.name.data h
    constructor
    · apply String.ext
      rw [firstName_data, hsp]
      rfl
    · apply String.ext
      rw [lastName_data, hsp]
      rfl
  · intro h
    exact name_join customer.name h
  · intro h
    show firstName customer.name = "Ada" ∧ lastName customer.name = "Lovelace"
    rw [h]
    exact ⟨by decide, by decide⟩
  · intro h
    show firstName customer.name = "Prince" ∧ lastName customer.name = ""
    rw [h]
    exact ⟨by decide, by decide⟩

/-- The recipient of the document sent for `Ada Lovelace`. -/
theorem C6_name_split_witness :
    upOk.createFromTemplate = .ok "doc-1" ∧
    (generatePandaDocContract env0 upOk world0 ada 50000).1.documents.map
      (fun d => d.recipients) =
      [[{ email := "a@x.com", first_name := "Ada", last_name := "Lovelace", role := "Client" }]] ∧
    ∃ document recipient,
      (generatePandaDocContract env0 upOk world0 ada 50000).1.documents =
        world0.documents ++ [document] ∧
      document.recipients = [recipient] ∧
      recipient.first_name ++ " " ++ recipient.last_name = ada.name :=
  ⟨rfl, by decide,
    (C6_name_split env0 upOk world0 ada 50000 "doc-1" rfl).elim fun document h =>
      h.elim fun recipient h2 =>
        ⟨document, recipient, h2.1, h2.2.2.1, h2.2.2.2.2.2.2.2.2.2.1 (by decide)⟩⟩

/-! ## Tier classification -/

/-- C1: `getTierTemplate` returns the basic template for amounts up to 35000, the
premium template for amounts above 35000 and up to 1000000, and the enterprise
template above 1000000; 35000 is basic, 35001 and 1000000 premium, 1000001
enterprise. -/
theorem C1_getTierTemplate_tiers (env : Env) (a : Nat) :
    (a ≤ 35000 → getTierTemplate env a = env.PANDADOC_TEMPLATE_BASIC) ∧
    (35000 < a ∧ a ≤ 1000000 → getTierTemplate env a = env.PANDADOC_TEMPLATE_PREMIUM) ∧
    (1000000 < a → getTierTemplate env a = env.PANDADOC_TEMPLATE_ENTERPRISE) ∧
    getTierTemplate env 35000 = env.PANDADOC_TEMPLATE_BASIC ∧
    getTierTemplate env 35001 = env.PANDADOC_TEMPLATE_PREMIUM ∧
    getTierTemplate env 1000000 = env.PANDADOC_TEMPLATE_PREMIUM ∧
    getTierTemplate env 1000001 = env.PANDADOC_TEMPLATE_ENTERPRISE := by
  refine ⟨fun h => ?_, fun h => ?_, fun h => ?_, ?_, ?_, ?_, ?_⟩
  · simp [getTierTemplate, h]
  · have h1 : ¬ a ≤ 35000 := by omega
    simp [getTierTemplate, h1, h.2]
  · have h1 : ¬ a ≤ 35000 := by omega
    have h2 : ¬ a ≤ 1000000 := by omega
    simp [getTierTemplate, h1, h2]
  · simp [getTierTemplate]
  · simp [getTierTemplate]
  · simp [getTierTemplate]
  · simp [getTierTemplate]

/-- The three tiers are told apart at the boundaries when the configured template
identifiers differ. -/
theorem C1_getTierTemplate_witness :
    getTierTemplate env0 35000 = "tpl-basic" ∧ getTierTemplate env0 35001 = "tpl-premium" ∧
    getTierTemplate env0 1000001 = "tpl-enterprise" := by
  have h := C1_getTierTemplate_tiers env0 0
  exact ⟨h.2.2.2.1, h.2.2.2.2.1, h.2.2.2.2.2.2⟩

/-! ## Redelivery -/

/-- C2 (as the code behaves): the handler keeps no trace of the sessions it has
processed, so when every call succeeds in both deliveries, delivering the same
checkout-completed event twice creates two invoices, two documents sent for
signature and two transaction records for the session; each delivery is
acknowledged. -/
theorem C2_redelivery_repeats_side_effects (env : Env) (u1 u2 : Upstream) (w : World)
    (event : Event) (hev : event.type = "checkout.session.completed")
    (h1 : u1.AllSucceed event.object.customer) (h2 : u2.AllSucceed event.object.customer) :
    let once := handler env u1 w event
    let twice := handler env u2 once.1 event
    once.2 = { status := 200, body := Body.received true } ∧
    twice.2 = { status := 200, body := Body.received true } ∧
    once.1.invoices.length = w.invoices.length + 1 ∧
    once.1.sent.length = w.sent.length + 1 ∧
    recordsFor once.1 event.object.id = recordsFor w event.object.id + 1 ∧
    twice.1.invoices.length = w.invoices.length + 2 ∧
    twice.1.documents.length = w.documents.length + 2 ∧
    twice.1.sent.length = w.sent.length + 2 ∧
    twice.1.transactions.length = w.transactions.length + 2 ∧
    recordsFor twice.1 event.object.id = recordsFor w event.object.id + 2 := by
  obtain ⟨⟨c1, hr1⟩, hg1, ⟨cid1, hc1⟩, ⟨iid1, hi1⟩, ⟨did1, hd1⟩, hs1, ha1⟩ := h1
  obtain ⟨⟨c2, hr2⟩, hg2, ⟨cid2, hc2⟩, ⟨iid2, hi2⟩, ⟨did2, hd2⟩, hs2, ha2⟩ := h2
  intro once twice
  have e1 : once = _ := handler_ok env u1 w event c1 cid1 iid1 did1 hev hr1 hg1 hc1 hi1 hd1 hs1 ha1
  have e2 : twice = _ :=
    handler_ok env u2 once.1 event c2 cid2 iid2 did2 hev hr2 hg2 hc2 hi2 hd2 hs2 ha2
  rw [e2, e1]
  simp [recordsFor, transactionRecord, List.filter_append, acknowledged]

theorem C2_redelivery_witness :
    (handler env0 upOk (handler env0 upOk world0 event0).1 event0).1.invoices.length = 2 ∧
    recordsFor (handler env0 upOk (handler env0 upOk world0 event0).1 event0).1 "s1" = 2 := by
  have hs : upOk.AllSucceed event0.object.customer :=
    ⟨⟨ada, rfl⟩, rfl, ⟨"contact-1", rfl⟩, ⟨"inv-1", rfl⟩, ⟨"doc-1", rfl⟩, rfl, rfl⟩
  have h := C2_redelivery_repeats_side_effects env0 upOk upOk world0 event0 rfl hs hs
  exact ⟨h.2.2.2.2.2.1, h.2.2.2.2.2.2.2.2.2⟩

/-- C2 fails as stated: with every call succeeding, the second delivery of the
event with session id `s1` leaves two invoices, two signature requests and two
records for `s1`, not one of each. -/
theorem C2_redelivery_counterexample :
    upOk.AllSucceed event0.object.customer ∧
    ¬ ((handler env0 upOk (handler env0 upOk world0 event0).1 event0).1.invoices.length = 1 ∧
       (handler env0 upOk (handler env0 upOk world0 event0).1 event0).1.sent.length = 1 ∧
       recordsFor (handler env0 upOk (handler env0 upOk world0 event0).1 event0).1 "s1" = 1) ∧
    (handler env0 upOk (handler env0 upOk world0 event0).1 event0).1.invoices.length = 2 ∧
    (handler env0 upOk (handler env0 upOk world0 event0).1 event0).1.sent.length = 2 ∧
    recordsFor (handler env0 upOk (handler env0 upOk world0 event0).1 event0).1 "s1" = 2 := by
  refine ⟨⟨⟨ada, rfl⟩, rfl, ⟨"contact-1", rfl⟩, ⟨"inv-1", rfl⟩, ⟨"doc-1", rfl⟩, rfl, rfl⟩,
    ?_, ?_, ?_, ?_⟩ <;> decide

/-! ## Failures -/

/-- A delivery that is answered with an error has written no transaction record. -/
theorem handler_failed_transactions (env : Env) (u : Upstream) (w : World) (event : Event)
    (msg : String) (h : (handler env u w event).2 = failed msg) :
    (handler env u w event).1.transactions = w.transactions := by
  by_cases hev : event.type = "checkout.session.completed"
  swap
  · rw [handler_other_event env u w event hev]
  cases hr : u.retrieve event.object.customer with
  | error m => rw [handler_retrieve_error env u w event m hev hr]
  | ok customer =>
    rw [handler_retrieve_ok env u w event customer hev hr] at h ⊢
    have hx := createXeroInvoice_frame u w customer event.object.amount_total
    rcases hX : createXeroInvoice u w customer event.object.amount_total with ⟨w1, r1⟩
    rw [hX] at hx h
    cases r1 with
    | error m => simpa using hx.2.2
    | ok invoice =>
      have hp := generatePandaDocContract_frame env u w1 customer event.object.amount_total
      simp only [] at h ⊢
      rcases hP : generatePandaDocContract env u w1 customer event.object.amount_total
        with ⟨w2, r2⟩
      rw [hP] at hp h
      cases r2 with
      | error m =>
        simp only [] at hp hx ⊢
        rw [hp.2.2, hx.2.2]
      | ok contract =>
        simp only [] at h hp hx ⊢
        unfold storeTransaction at h ⊢
        cases ha : u.add with
        | some m =>
          simp only []
          rw [hp.2.2, hx.2.2]
        | none =>
          rw [ha] at h
          simp [acknowledged, failed] at h

/-- C3 (as the code behaves): a delivery in which a step fails writes no
transaction record at all.  Whenever the handler answers with an error the
`transactions` collection is unchanged; when PandaDoc fails after the invoice was
issued, the invoice stays in Xero, no record refers to it and the answer is the
error; when Xero rejects the new contact, nothing at all is changed and the answer
is the rejection. -/
theorem C3_failure_writes_no_record (env : Env) (u : Upstream) (w : World) (event : Event)
    (hev : event.type = "checkout.session.completed") :
    (∀ msg, (handler env u w event).2 = { status := 500, body := Body.error msg } →
      (handler env u w event).1.transactions = w.transactions) ∧
    (∀ customer w1 invoice w2 msg,
      u.retrieve event.object.customer = .ok customer →
      createXeroInvoice u w customer event.object.amount_total = (w1, .ok invoice) →
      generatePandaDocContract env u w1 customer event.object.amount_total = (w2, .error msg) →
      (handler env u w event).2 = { status := 500, body := Body.error msg } ∧
      invoice ∈ (handler env u w event).1.invoices ∧
      (handler env u w event).1.transactions = w.transactions) ∧
    (∀ customer msg,
      u.retrieve event.object.customer = .ok customer → u.getContacts = none →
      findContact w.contacts customer = none → u.createContacts = .error msg →
      handler env u w event = (w, { status := 500, body := Body.error msg })) := by
  have hf : ∀ m : String, ({ status := 500, body := Body.error m } : Response) = failed m :=
    fun _ => rfl
  have ha : ({ status := 200, body := Body.received true } : Response) = acknowledged := rfl
  simp only [hf, ha]
  refine ⟨fun msg h => handler_failed_transactions env u w event msg h, ?_, ?_⟩
  · intro customer w1 invoice w2 msg hr hX hP
    have hres : handler env u w event = (w2, failed msg) := by
      rw [handler_retrieve_ok env u w event customer hev hr]
      simp only [hX, hP]
    have hfr := generatePandaDocContract_frame env u w1 customer event.object.amount_total
    rw [hP] at hfr
    refine ⟨by rw [hres], ?_, handler_failed_transactions env u w event msg (by rw [hres])⟩
    rw [hres]
    simp only [] at hfr ⊢
    rw [hfr.2.1]
    -- the invoice returned by `createXeroInvoice` is the one it stored
    unfold createXeroInvoice submitInvoice at hX
    cases hg : u.getContacts <;> cases hf : findContact w.contacts customer <;>
      cases hc : u.createContacts <;> cases hi : u.createInvoices <;>
      simp [hg, hf, hc, hi] at hX <;>
      (obtain ⟨rfl, rfl⟩ := hX; simp)
  · intro customer msg hr hg hf hc
    rw [handler_retrieve_ok env u w event customer hev hr]
    simp [createXeroInvoice, hg, hf, hc]

theorem C3_failure_witness :
    event0.type = "checkout.session.completed" ∧
    (handler env0 upSendFails world0 event0).2 = { status := 500, body := Body.error "PandaDoc unavailable" } ∧
    (handler env0 upSendFails world0 event0).1.transactions = world0.transactions :=
  ⟨rfl, by decide,
    (C3_failure_writes_no_record env0 upSendFails world0 event0 rfl).1 "PandaDoc unavailable"
      (by decide)⟩

/-- C3 fails as stated: PandaDoc refuses the signature request after invoice
`inv-1` was issued, and Xero rejects the contact in a second scenario; in both the
`transactions` collection stays empty, so no record carries the invoice id or
refers to the rejection. -/
theorem C3_failure_counterexample :
    (handler env0 upSendFails world0 event0).1.invoices.map (fun i => i.InvoiceID) = ["inv-1"] ∧
    (handler env0 upSendFails world0 event0).1.transactions = [] ∧
    (handler env0 upSendFails world0 event0).2 = { status := 500, body := Body.error "PandaDoc unavailable" } ∧
    (handler env0 upContactRejected world0 event0).1.transactions = [] ∧
    (handler env0 upContactRejected world0 event0).2 = { status := 500, body := Body.error "Email address is invalid" } := by
  refine ⟨?_, ?_, ?_, ?_, ?_⟩ <;> decide

/-- Contact resolution and invoicing leave the world alone when they cannot
submit the invoice. -/
theorem createXeroInvoice_invoice_rejected (u : Upstream) (w : World) (customer : Customer)
    (amount : Nat) (msg : String) (hi : u.createInvoices = .error msg) :
    (createXeroInvoice u w customer amount).1.invoices = w.invoices ∧
    ∃ m, (createXeroInvoice u w customer amount).2 = .error m := by
  unfold createXeroInvoice submitInvoice
  cases u.getContacts <;> cases findContact w.contacts customer <;>
    cases u.createContacts <;> simp [hi]

/-- A failing `createXeroInvoice` ends the delivery with the world it left. -/
theorem handler_invoice_error (env : Env) (u : Upstream) (w : World) (event : Event)
    (customer : Customer) (w1 : World) (msg : String)
    (hev : event.type = "checkout.session.completed")
    (hr : u.retrieve event.object.customer = .ok customer)
    (hX : createXeroInvoice u w customer event.object.amount_total = (w1, .error msg)) :
    handler env u w event = (w1, failed msg) := by
  unfold handler
  rw [if_pos hev]
  simp only [hr, hX]

/-- C4: a failing step aborts the later ones.  When the customer fetch, the
contact lookup or the contact creation fails, the external systems are left
exactly as they were (no invoice, no document, no signature request); when invoice
creation fails, no document is created or sent; when document creation fails, no
signature request is sent. -/
theorem C4_failure_aborts_later_steps (env : Env) (u : Upstream) (w : World) (event : Event) :
    (∀ msg, u.retrieve event.object.customer = .error msg → (handler env u w event).1 = w) ∧
    (∀ msg, u.getContacts = some msg → (handler env u w event).1 = w) ∧
    (∀ customer msg, u.retrieve event.object.customer = .ok customer →
      findContact w.contacts customer = none → u.createContacts = .error msg →
      (handler env u w event).1 = w) ∧
    (∀ msg, u.createInvoices = .error msg →
      (handler env u w event).1.invoices = w.invoices ∧
      (handler env u w event).1.documents = w.documents ∧
      (handler env u w event).1.sent = w.sent) ∧
    (∀ msg, u.createFromTemplate = .error msg →
      (handler env u w event).1.documents = w.documents ∧
      (handler env u w event).1.sent = w.sent) := by
  by_cases hev : event.type = "checkout.session.completed"
  swap
  · simp [handler_other_event env u w event hev]
  refine ⟨?_, ?_, ?_, ?_, ?_⟩
  · intro msg hr
    rw [handler_retrieve_error env u w event msg hev hr]
  · intro msg hg
    cases hr : u.retrieve event.object.customer with
    | error m => rw [handler_retrieve_error env u w event m hev hr]
    | ok customer =>
      rw [handler_retrieve_ok env u w event customer hev hr]
      simp [createXeroInvoice, hg]
  · intro customer msg hr hf hc
    rw [handler_retrieve_ok env u w event customer hev hr]
    cases hg : u.getContacts <;> simp [createXeroInvoice, hg, hf, hc]
  · intro msg hi
    cases hr : u.retrieve event.object.customer with
    | error m => simp [handler_retrieve_error env u w event m hev hr]
    | ok customer =>
      obtain ⟨hinv, m, hm⟩ :=
        createXeroInvoice_invoice_rejected u w customer event.object.amount_total msg hi
      have hfr := createXeroInvoice_frame u w customer event.object.amount_total
      rcases hX : createXeroInvoice u w customer event.object.amount_total with ⟨w1, r1⟩
      rw [hX] at hinv hm hfr
      simp only [] at hinv hm hfr
      subst hm
      rw [handler_invoice_error env u w event customer w1 m hev hr hX]
      exact ⟨hinv, hfr.1, hfr.2.1⟩
  · intro msg hd
    cases hr : u.retrieve event.object.customer with
    | error m => simp [handler_retrieve_error env u w event m hev hr]
    | ok customer =>
      rw [handler_retrieve_ok env u w event customer hev hr]
      have hfr := createXeroInvoice_frame u w customer event.object.amount_total
      rcases hX : createXeroInvoice u w customer event.object.amount_total with ⟨w1, r1⟩
      rw [hX] at hfr
      cases r1 with
      | error m => exact ⟨hfr.1, hfr.2.1⟩
      | ok invoice =>
        simp only [generatePandaDocContract, hd]
        exact ⟨hfr.1, hfr.2.1⟩

/-- Xero rejects the new contact: nothing is invoiced, created or sent. -/
theorem C4_failure_aborts_witness :
    event0.type = "checkout.session.completed" ∧
    upContactRejected.createInvoices = .ok "inv-1" ∧
    (handler env0 upContactRejected world0 event0).1 = world0 :=
  ⟨rfl, rfl, (C4_failure_aborts_later_steps env0 upContactRejected world0 event0).2.2.1
    ada "Email address is invalid" rfl rfl rfl⟩

/-! ## Acknowledgment -/

/-- C5: for a checkout-completed event the handler answers with status 200 and
body `{received: true}` only when the transaction record has been appended to the
store; when the customer fetch, the invoice step, the contract step or the record
write fails with an error of message `msg`, the answer is status 500 with body
`{error: msg}`; there is no other answer. -/
theorem C5_acknowledge_only_after_record (env : Env) (u : Upstream) (w : World) (event : Event)
    (hev : event.type = "checkout.session.completed") :
    ((handler env u w event).2 = { status := 200, body := Body.received true } →
      u.add = none ∧
      ∃ customer invoice contract,
        u.retrieve event.object.customer = .ok customer ∧
        (createXeroInvoice u w customer event.object.amount_total).2 = .ok invoice ∧
        (generatePandaDocContract env u
          (createXeroInvoice u w customer event.object.amount_total).1 customer
          event.object.amount_total).2 = .ok contract ∧
        (handler env u w event).1.transactions =
          w.transactions ++
            [transactionRecord customer event.object invoice.InvoiceID contract.id]) ∧
    (∀ msg, u.retrieve event.object.customer = .error msg →
      (handler env u w event).2 = { status := 500, body := Body.error msg }) ∧
    (∀ customer msg, u.retrieve event.object.customer = .ok customer →
      (createXeroInvoice u w customer event.object.amount_total).2 = .error msg →
      (handler env u w event).2 = { status := 500, body := Body.error msg }) ∧
    (∀ customer invoice msg, u.retrieve event.object.customer = .ok customer →
      (createXeroInvoice u w customer event.object.amount_total).2 = .ok invoice →
      (generatePandaDocContract env u
        (createXeroInvoice u w customer event.object.amount_total).1 customer
        event.object.amount_total).2 = .error msg →
      (handler env u w event).2 = { status := 500, body := Body.error msg }) ∧
    (∀ customer invoice contract msg, u.retrieve event.object.customer = .ok customer →
      (createXeroInvoice u w customer event.object.amount_total).2 = .ok invoice →
      (generatePandaDocContract env u
        (createXeroInvoice u w customer event.object.amount_total).1 customer
        event.object.amount_total).2 = .ok contract →
      u.add = some msg →
      (handler env u w event).2 = { status := 500, body := Body.error msg }) ∧
    ((handler env u w event).2 = { status := 200, body := Body.received true } ∨
      ∃ msg, (handler env u w event).2 = { status := 500, body := Body.error msg }) := by
  have hf : ∀ m : String, ({ status := 500, body := Body.error m } : Response) = failed m :=
    fun _ => rfl
  have ha : ({ status := 200, body := Body.received true } : Response) = acknowledged := rfl
  simp only [hf, ha]
  have key := fun customer => handler_retrieve_ok env u w event customer hev
  have hne : ∀ m, failed m ≠ acknowledged := by
    intro m h
    simp [failed, acknowledged] at h
  refine ⟨?_, ?_, ?_, ?_, ?_, ?_⟩
  · intro hack
    cases hr : u.retrieve event.object.customer with
    | error m =>
      exfalso
      rw [handler_retrieve_error env u w event m hev hr] at hack
      exact hne m hack
    | ok customer =>
      have hk := key customer hr
      have hfx := createXeroInvoice_frame u w customer event.object.amount_total
      rcases hX : createXeroInvoice u w customer event.object.amount_total with ⟨w1, r1⟩
      rw [hX] at hk hfx
      cases r1 with
      | error m => rw [hk] at hack; exact absurd hack (hne m)
      | ok invoice =>
        have hfp := generatePandaDocContract_frame env u w1 customer event.object.amount_total
        simp only [] at hk
        rcases hP : generatePandaDocContract env u w1 customer event.object.amount_total
          with ⟨w2, r2⟩
        rw [hP] at hk hfp
        cases r2 with
        | error m => rw [hk] at hack; exact absurd hack (hne m)
        | ok contract =>
          simp only [storeTransaction] at hk
          cases ha : u.add with
          | some m => rw [ha] at hk; rw [hk] at hack; exact absurd hack (hne m)
          | none =>
            rw [ha] at hk
            refine ⟨rfl, customer, invoice, contract, rfl, by rw [hX], ?_, ?_⟩
            · simp only [hX, hP]
            · rw [hk]
              simp only [] at hfp hfx ⊢
              rw [hfp.2.2, hfx.2.2]
  · intro msg hr
    rw [handler_retrieve_error env u w event msg hev hr]
  · intro customer msg hr hX
    rw [key customer hr]
    rcases hX' : createXeroInvoice u w customer event.object.amount_total with ⟨w1, r1⟩
    rw [hX'] at hX
    simp only [] at hX
    subst hX
    rfl
  · intro customer invoice msg hr hX hP
    rw [key customer hr]
    rcases hX' : createXeroInvoice u w customer event.object.amount_total with ⟨w1, r1⟩
    rw [hX'] at hX hP
    simp only [] at hX hP
    subst hX
    simp only []
    rcases hP' : generatePandaDocContract env u w1 customer event.object.amount_total
      with ⟨w2, r2⟩
    rw [hP'] at hP
    simp only [] at hP
    subst hP
    rfl
  · intro customer invoice contract msg hr hX hP ha
    rw [key customer hr]
    rcases hX' : createXeroInvoice u w customer event.object.amount_total with ⟨w1, r1⟩
    rw [hX'] at hX hP
    simp only [] at hX hP
    subst hX
    simp only []
    rcases hP' : generatePandaDocContract env u w1 customer event.object.amount_total
      with ⟨w2, r2⟩
    rw [hP'] at hP
    simp only [] at hP
    subst hP
    simp [storeTransaction, ha]
  · cases hr : u.retrieve event.object.customer with
    | error m => right; exact ⟨m, by rw [handler_retrieve_error env u w event m hev hr]⟩
    | ok customer =>
      rw [key customer hr]
      rcases createXeroInvoice u w customer event.object.amount_total with ⟨w1, r1⟩
      cases r1 with
      | error m => right; exact ⟨m, rfl⟩
      | ok invoice =>
        simp only []
        rcases generatePandaDocContract env u w1 customer event.object.amount_total
          with ⟨w2, r2⟩
        cases r2 with
        | error m => right; exact ⟨m, rfl⟩
        | ok contract =>
          simp only [storeTransaction]
          cases u.add with
          | some m => right; exact ⟨m, rfl⟩
          | none => left; rfl

theorem C5_acknowledge_witness :
    event0.type = "checkout.session.completed" ∧
    (handler env0 upAddFails world0 event0).2 = { status := 500, body := Body.error "Firestore unavailable" } ∧
    (handler env0 upOk world0 event0).2 = { status := 200, body := Body.received true } ∧
    upOk.add = none := by
  have h := C5_acknowledge_only_after_record env0 upOk world0 event0 rfl
  exact ⟨rfl, by decide, by decide, (h.1 (by decide)).1⟩

/-! ## Contact resolution -/

theorem findContact_none_iff (contacts : List Contact) (customer : Customer) :
    findContact contacts customer = none ↔
      ∀ c ∈ contacts, c.EmailAddress ≠ some customer.email := by
  simp [findContact, List.find?_eq_none]

theorem findContact_some (contacts : List Contact) (customer : Customer) (contact : Contact)
    (h : findContact contacts customer = some contact) :
    contact ∈ contacts ∧ contact.EmailAddress = some customer.email := by
  unfold findContact at h
  exact ⟨List.mem_of_find?_eq_some h, by simpa using List.find?_some h⟩

/-- C9: given the contact list Xero returns, `createXeroInvoice` creates a contact
exactly when no listed contact has the customer's email.  A listed contact with
that email is reused: the contact list is left as it is and the invoice refers to
that contact's `ContactID`.  When none is listed, contact creation is called: if
Xero accepts it, exactly one contact, carrying the customer's email, is added and
the invoice refers to its `ContactID`; if Xero rejects it, that rejection is the
outcome. -/
theorem C9_resolve_before_create (u : Upstream) (w : World) (customer : Customer)
    (amount : Nat) (hg : u.getContacts = none) :
    ((createXeroInvoice u w customer amount).1.contacts ≠ w.contacts →
      ∀ c ∈ w.contacts, c.EmailAddress ≠ some customer.email) ∧
    (∀ contact, findContact w.contacts customer = some contact →
      contact ∈ w.contacts ∧ contact.EmailAddress = some customer.email ∧
      (createXeroInvoice u w customer amount).1.contacts = w.contacts ∧
      ∀ invoice, (createXeroInvoice u w customer amount).2 = .ok invoice →
        invoice.ContactID = contact.ContactID) ∧
    ((∃ c ∈ w.contacts, c.EmailAddress = some customer.email) →
      (createXeroInvoice u w customer amount).1.contacts = w.contacts) ∧
    (∀ cid, u.createContacts = .ok cid →
      ((createXeroInvoice u w customer amount).1.contacts ≠ w.contacts ↔
        ∀ c ∈ w.contacts, c.EmailAddress ≠ some customer.email) ∧
      ((∀ c ∈ w.contacts, c.EmailAddress ≠ some customer.email) →
        (createXeroInvoice u w customer amount).1.contacts =
          w.contacts ++ [newContact customer cid] ∧
        (newContact customer cid).ContactID = cid ∧
        (newContact customer cid).EmailAddress = some customer.email ∧
        ∀ invoice, (createXeroInvoice u w customer amount).2 = .ok invoice →
          invoice.ContactID = cid)) ∧
    (∀ msg, (∀ c ∈ w.contacts, c.EmailAddress ≠ some customer.email) →
      u.createContacts = .error msg →
      createXeroInvoice u w customer amount = (w, .error msg)) := by
  have hsome : ∀ contact, findContact w.contacts customer = some contact →
      (createXeroInvoice u w customer amount).1.contacts = w.contacts ∧
      ∀ invoice, (createXeroInvoice u w customer amount).2 = .ok invoice →
        invoice.ContactID = contact.ContactID := by
    intro contact hf
    unfold createXeroInvoice submitInvoice
    rw [hg]
    simp only [hf]
    cases u.createInvoices with
    | error m => simp
    | ok iid =>
      refine ⟨rfl, ?_⟩
      intro invoice hinv
      simp only [Except.ok.injEq] at hinv
      rw [← hinv]
      rfl
  have hnone : ∀ cid, u.createContacts = .ok cid → findContact w.contacts customer = none →
      (createXeroInvoice u w customer amount).1.contacts =
        w.contacts ++ [newContact customer cid] ∧
      ∀ invoice, (createXeroInvoice u w customer amount).2 = .ok invoice →
        invoice.ContactID = cid := by
    intro cid hc hf
    unfold createXeroInvoice submitInvoice
    rw [hg]
    simp only [hf, hc]
    cases u.createInvoices with
    | error m => simp
    | ok iid =>
      refine ⟨rfl, ?_⟩
      intro invoice hinv
      simp only [Except.ok.injEq] at hinv
      rw [← hinv]
      rfl
  have honly : (createXeroInvoice u w customer amount).1.contacts ≠ w.contacts →
      findContact w.contacts customer = none := by
    intro hne
    cases hf : findContact w.contacts customer with
    | none => rfl
    | some contact => exact absurd (hsome contact hf).1 hne
  refine ⟨?_, ?_, ?_, ?_, ?_⟩
  · intro hne
    exact (findContact_none_iff w.contacts customer).1 (honly hne)
  · intro contact hf
    obtain ⟨hm, he⟩ := findContact_some w.contacts customer contact hf
    exact ⟨hm, he, hsome contact hf⟩
  · rintro ⟨c, hcm, hce⟩
    cases hf : findContact w.contacts customer with
    | none => exact absurd hce ((findContact_none_iff w.contacts customer).1 hf c hcm)
    | some contact => exact (hsome contact hf).1
  · intro cid hc
    constructor
    · rw [← findContact_none_iff]
      constructor
      · exact honly
      · intro hf
        rw [(hnone cid hc hf).1]
        simp
    · intro hall
      have hf := (findContact_none_iff w.contacts customer).2 hall
      exact ⟨(hnone cid hc hf).1, rfl, rfl, (hnone cid hc hf).2⟩
  · intro msg hall hc
    have hf := (findContact_none_iff w.contacts customer).2 hall
    unfold createXeroInvoice
    rw [hg]
    simp only [hf, hc]

/-- The second delivery for `a@x.com` finds the contact the first one created. -/
theorem C9_resolve_witness :
    upOk.getContacts = none ∧
    (createXeroInvoice upOk (handler env0 upOk world0 event0).1 ada 50000).1.contacts =
      (handler env0 upOk world0 event0).1.contacts ∧
    (createXeroInvoice upOk world0 ada 50000).1.contacts = [newContact ada "contact-1"] :=
  ⟨rfl,
    (C9_resolve_before_create upOk (handler env0 upOk world0 event0).1 ada 50000 rfl).2.2.1
      ⟨newContact ada "contact-1", by decide, rfl⟩,
    by decide⟩

/-! ## End-to-end scenario -/

theorem majorUnits_50000 : majorUnits 50000 = 500 := by decide!

/-- C8: for a checkout-completed event with session id `s1` and amount 50000 whose
customer has the email `a@x.com`, when Xero lists no contact with that email and
every call succeeds, the handler adds exactly one contact (with that email), one
invoice against it with a single line of unit amount 500, one document from the
premium template addressed to `a@x.com`, one signature request naming that
document, with the review message and not silent, and one transaction record with
`paymentStatus = "completed"` carrying the session id, the invoice id and the
document id; the answer is 200 `{received: true}`. -/
theorem C8_end_to_end (env : Env) (u : Upstream) (w : World) (customer : Customer)
    (ref currency cid iid did : String)
    (hemail : customer.email = "a@x.com")
    (hr : u.retrieve ref = .ok customer)
    (hnew : ∀ c ∈ w.contacts, c.EmailAddress ≠ some "a@x.com")
    (hg : u.getContacts = none) (hc : u.createContacts = .ok cid)
    (hi : u.createInvoices = .ok iid) (hd : u.createFromTemplate = .ok did)
    (hs : u.send = none) (ha : u.add = none) :
    let event : Event :=
      { type := "checkout.session.completed"
        object := { id := "s1", customer := ref, amount_total := 50000, currency := currency } }
    let result := handler env u w event
    result.2 = { status := 200, body := Body.received true } ∧
    result.1.contacts = w.contacts ++ [newContact customer cid] ∧
    (newContact customer cid).EmailAddress = some "a@x.com" ∧
    (∃ invoice, result.1.invoices = w.invoices ++ [invoice] ∧
      invoice.InvoiceID = iid ∧ invoice.ContactID = cid ∧
      invoice.LineItems.map (fun l => l.UnitAmount) = [500]) ∧
    (∃ document, result.1.documents = w.documents ++ [document] ∧
      document.id = did ∧ document.templateUuid = env.PANDADOC_TEMPLATE_PREMIUM ∧
      document.recipients.map (fun r => r.email) = ["a@x.com"]) ∧
    result.1.sent = w.sent ++
      [{ documentId := did
         message := "Please review and sign your Vision Lake subscription contract"
         silent := false }] ∧
    newContact customer cid =
      { ContactID := cid, Name := customer.name, EmailAddress := some "a@x.com"
        Phones := [{ PhoneType := "MOBILE", PhoneNumber := customer.phone }] } ∧
    (∃ record, result.1.transactions = w.transactions ++ [record] ∧
      record.paymentStatus = "completed" ∧ record.stripeSessionId = "s1" ∧
      record.xeroInvoiceId = iid ∧ record.pandaDocContractId = did ∧
      record.customerEmail = "a@x.com" ∧ record.amount = 50000 ∧
      record.customerId = customer.id ∧ record.currency = currency) := by
  intro event result
  have hf : findContact w.contacts customer = none := by
    rw [findContact_none_iff, hemail]
    exact hnew
  have hres : result = _ :=
    handler_ok env u w event customer cid iid did rfl hr hg hc hi hd hs ha
  rw [hres]
  refine ⟨rfl, ?_, ?_, ⟨_, rfl, rfl, ?_, ?_⟩, ⟨_, rfl, rfl, ?_, ?_⟩, rfl, ?_,
    ⟨_, rfl, rfl, rfl, rfl, rfl, ?_, rfl, rfl, rfl⟩⟩
  · simp [contactsAfter, hf]
  · simp [newContact, hemail]
  · simp [newInvoice, resolvedContact, hf, newContact]
  · simp [newInvoice, event, majorUnits_50000]
  · simp [newDocument, getTierTemplate, event]
  · simp [newDocument, hemail]
  · simp [newContact, hemail]
  · simp [transactionRecord, hemail]

theorem C8_end_to_end_witness :
    (handler env0 upOk world0 event0).2 = { status := 200, body := Body.received true } ∧
    (handler env0 upOk world0 event0).1.sent =
      [{ documentId := "doc-1"
         message := "Please review and sign your Vision Lake subscription contract"
         silent := false }] :=
  have h := C8_end_to_end env0 upOk world0 ada "cus_1" "usd" "contact-1" "inv-1" "doc-1"
    rfl rfl (by simp [world0]) rfl rfl rfl rfl rfl rfl
  ⟨h.1, h.2.2.2.2.2.1⟩

/-! ## Minor units to major units -/

/-- C7 (as the code behaves): for every amount up to 100 * 2^46 =
7036874417766400 minor units, the document `generatePandaDocContract` submits
carries the three tokens `client.name`, `subscription.amount` and
`subscription.date`, and the value of `subscription.amount` is a dollar sign
followed by the string conversion of the Number `amount / 100`, a plain decimal
numeral that reads back as exactly `amount / 100`; 123456 gives `$1234.56`, 35001
gives `$350.01` and 35000 gives `$350`. -/
theorem C7_amount_token_exact (env : Env) (u : Upstream) (w : World) (customer : Customer)
    (a : ℕ) (did : String) (hd : u.createFromTemplate = .ok did) (hle : a ≤ 100 * 2 ^ 46) :
    ∃ document value,
      (generatePandaDocContract env u w customer a).1.documents = w.documents ++ [document] ∧
      (∀ contract, (generatePandaDocContract env u w customer a).2 = .ok contract →
        contract = document) ∧
      document.tokens =
        [{ name := "client.name", value := customer.name },
         { name := "subscription.amount", value := value },
         { name := "subscription.date", value := u.contractClock.localeDateString }] ∧
      value.data = '$' :: (numberToString (JS.div (JS.ofNat a) (JS.ofNat 100))).data ∧
      readDollars value = some ((a : ℚ) / 100) ∧
      (a = 123456 → value = "$1234.56") ∧ (a = 35001 → value = "$350.01") ∧
      (a = 35000 → value = "$350") := by
  obtain ⟨hdoc, hret⟩ := generatePandaDocContract_document env u w customer a did hd
  have h53 : a < 2 ^ 53 := lt_of_le_of_lt hle (by norm_num)
  have hdata : (amountToken a).data = '$' :: (numberToString (majorUnits a)).data := by
    unfold amountToken
    rw [String.data_append]
    rfl
  refine ⟨newDocument env customer a u.contractClock did, amountToken a, hdoc, hret, rfl,
    hdata, ?_, ?_, ?_, ?_⟩
  · unfold readDollars
    rw [hdata, majorUnits_eq a h53]
    exact numberToString_div_hundred a hle
  · intro h
    rw [h]
    decide!
  · intro h
    rw [h]
    decide!
  · intro h
    rw [h]
    decide!

/-- The largest amount a Stripe checkout accepts in most currencies. -/
theorem C7_amount_token_witness :
    upOk.createFromTemplate = .ok "doc-1" ∧ 99999999 ≤ 100 * 2 ^ 46 ∧
    ∃ document value,
      (generatePandaDocContract env0 upOk world0 ada 99999999).1.documents =
        world0.documents ++ [document] ∧
      document.tokens =
        [{ name := "client.name", value := "Ada Lovelace" },
         { name := "subscription.amount", value := value },
         { name := "subscription.date", value := "3/7/2024" }] ∧
      readDollars value = some (((99999999 : ℕ) : ℚ) / 100) :=
  ⟨rfl, by norm_num,
    (C7_amount_token_exact env0 upOk world0 ada 99999999 "doc-1" rfl (by norm_num)).elim
      fun document h => h.elim fun value h2 =>
        ⟨document, value, h2.1, h2.2.2.1, h2.2.2.2.2.1⟩⟩

/-- C7 fails as stated: 7036874417766401 is an integer a Number holds exactly, and
the `subscription.amount` token of the document submitted for it reads
`$70368744177664.02`, one cent more than 70368744177664.01. -/
theorem C7_amount_token_counterexample :
    JS.ofNat 7036874417766401 = 7036874417766401 ∧
    (generatePandaDocContract env0 upOk world0 ada 7036874417766401).1.documents.map
      (fun d => d.tokens) =
      [[{ name := "client.name", value := "Ada Lovelace" },
        { name := "subscription.amount", value := "$70368744177664.02" },
        { name := "subscription.date", value := "3/7/2024" }]] ∧
    amountToken 7036874417766401 = "$70368744177664.02" ∧
    readDollars (amountToken 7036874417766401) ≠ some (((7036874417766401 : ℕ) : ℚ) / 100) := by
  refine ⟨by decide!, by decide!, by decide!, by decide!⟩

/-! ## The invoice -/

/-- C10 (as the code behaves): for every resolved contact and every amount up to
100 * 2^46 minor units, the invoice `createXeroInvoice` submits has exactly one
line item with description `Vision Lake Subscription`, quantity 1 and as unit
amount the Number `amount / 100`, which lies within 1/256 of the quotient and
prints as a decimal numeral that reads back as exactly `amount / 100`; its status
is `AUTHORISED`; its date is the UTC calendar date of the clock, year, month and
day separated by hyphens with no time component, ten characters `YYYY-MM-DD` for
years up to 9999. -/
theorem C10_invoice_fields (u : Upstream) (w : World) (customer : Customer) (amount : ℕ)
    (cid iid : String) (hg : u.getContacts = none) (hc : u.createContacts = .ok cid)
    (hi : u.createInvoices = .ok iid) (hle : amount ≤ 100 * 2 ^ 46) :
    ∃ invoice item,
      (createXeroInvoice u w customer amount).2 = .ok invoice ∧
      (createXeroInvoice u w customer amount).1.invoices = w.invoices ++ [invoice] ∧
      invoice.ContactID = (resolvedContact w customer cid).ContactID ∧
      invoice.LineItems = [item] ∧
      item.Description = "Vision Lake Subscription" ∧ item.Quantity = 1 ∧
      item.UnitAmount = JS.div (JS.ofNat amount) (JS.ofNat 100) ∧
      |item.UnitAmount - (amount : ℚ) / 100| ≤ 1 / 256 ∧
      readDecimal (numberToString item.UnitAmount).data = some ((amount : ℚ) / 100) ∧
      invoice.Status = "AUTHORISED" ∧
      invoice.Date = String.mk (isoYear u.invoiceClock.year ++
        '-' :: pad2 u.invoiceClock.month ++ '-' :: pad2 u.invoiceClock.day) ∧
      'T' ∉ invoice.Date.data ∧
      (u.invoiceClock.year ≤ 9999 →
        invoice.Date = String.mk (pad4 u.invoiceClock.year ++
          '-' :: pad2 u.invoiceClock.month ++ '-' :: pad2 u.invoiceClock.day) ∧
        invoice.Date.length = 10) := by
  have h53 : amount < 2 ^ 53 := lt_of_le_of_lt hle (by norm_num)
  rw [createXeroInvoice_ok u w customer amount cid iid hg hc hi]
  refine ⟨_, _, rfl, rfl, rfl, rfl, rfl, rfl, rfl, ?_, ?_, rfl, isoDate_eq _, ?_, ?_⟩
  · show |majorUnits amount - (amount : ℚ) / 100| ≤ 1 / 256
    rw [majorUnits_eq amount h53]
    exact div_hundred_err amount hle
  · show readDecimal (numberToString (majorUnits amount)).data = _
    rw [majorUnits_eq amount h53]
    exact numberToString_div_hundred amount hle
  · show 'T' ∉ (isoDate u.invoiceClock).data
    rw [isoDate_eq]
    exact isoDate_no_T _
  · intro hy
    show isoDate u.invoiceClock = _ ∧ (isoDate u.invoiceClock).length = 10
    rw [isoDate_eq]
    have : isoYear u.invoiceClock.year = pad4 u.invoiceClock.year := by
      unfold isoYear
      rw [if_pos hy]
    rw [this]
    exact ⟨rfl, rfl⟩

theorem C10_invoice_fields_witness :
    (50000 : ℕ) ≤ 100 * 2 ^ 46 ∧
    (createXeroInvoice upOk world0 ada 50000).1.invoices.map (fun i => i.Date) = ["2024-03-07"] ∧
    ∃ invoice item, (createXeroInvoice upOk world0 ada 50000).2 = .ok invoice ∧
      invoice.LineItems = [item] ∧ item.Quantity = 1 :=
  have h := C10_invoice_fields upOk world0 ada 50000 "contact-1" "inv-1" rfl rfl rfl
    (by norm_num)
  ⟨by norm_num, by decide,
    h.elim fun invoice h2 => h2.elim fun item h3 => ⟨invoice, item, h3.1, h3.2.2.2.1, h3.2.2.2.2.2.1⟩⟩

/-- C10 fails as stated: for the amount 7036874417766401, which a Number holds
exactly, the unit amount submitted is 4503599627370497 / 64 = 70368744177664.015625,
which is not 70368744177664.01 and prints as `70368744177664.02`; and in the year
10000 the date is `+010000-03-07`, not of the form `YYYY-MM-DD`. -/
theorem C10_invoice_fields_counterexample :
    JS.ofNat 7036874417766401 = 7036874417766401 ∧
    (createXeroInvoice upOk world0 ada 7036874417766401).1.invoices.map
      (fun i => i.LineItems.map (fun l => l.UnitAmount)) = [[4503599627370497 / 64]] ∧
    (4503599627370497 / 64 : ℚ) ≠ ((7036874417766401 : ℕ) : ℚ) / 100 ∧
    numberToString (4503599627370497 / 64) = "70368744177664.02" ∧
    isoDate { clock0 with year := 10000 } = "+010000-03-07" := by
  refine ⟨by decide!, by decide!, by decide!, by decide!, by decide!⟩

end Pipeline
